import Mathlib

/-!
# NEORV32 multiplier validation harness

A shallow embedding of the three bare-metal C programs of the repository

* `Radix4_Implementation/Example.c`            (namespace `Radix4`)
* `FastMultiplier_Files/multiplication example.c` (namespace `FastMultiplier`)
* `Radix4_Files/StressTestExample.c`           (namespace `StressTest`)

Conventions of the embedding.

* A `uint8_t`, `uint32_t` or `uint64_t` value is a `Nat` below `2 ^ 8`, `2 ^ 32`, `2 ^ 64`;
  an `int32_t` or `int64_t` value is an `Int` in the two's complement range.
* Every C conversion and every arithmetic operation that can leave the range of its type
  is written out with an explicit reduction modulo `2 ^ w`.
* The compiler is GCC for RISC-V: conversion to a signed type wraps modulo `2 ^ w`
  and `>>` on a signed value is an arithmetic shift.
-/

namespace CInt

/-- Conversion of an integer value to `uint32_t`: reduction modulo `2 ^ 32`. -/
def to_u32 (x : Int) : Nat := (x % 2 ^ 32).toNat

/-- Conversion of an integer value to `uint64_t`: reduction modulo `2 ^ 64`. -/
def to_u64 (x : Int) : Nat := (x % 2 ^ 64).toNat

/-- Conversion of an integer value to `int64_t`: the representative of `x` modulo `2 ^ 64`
in the range `[-2 ^ 63, 2 ^ 63)`. -/
def to_i64 (x : Int) : Int :=
  if x % 2 ^ 64 < 2 ^ 63 then x % 2 ^ 64 else x % 2 ^ 64 - 2 ^ 64

/-- Conversion of an unsigned value to `uint32_t` (truncation to the low 32 bits). -/
def trunc_u32 (n : Nat) : Nat := n % 2 ^ 32

/-- Conversion of an unsigned value to `uint8_t` (truncation to the low 8 bits). -/
def trunc_u8 (n : Nat) : Nat := n % 2 ^ 8

/-- Multiplication of two `uint64_t` values: the product modulo `2 ^ 64`. -/
def mul_u64 (x y : Nat) : Nat := (x * y) % 2 ^ 64

/-- Multiplication of two `int64_t` values, with two's complement wrap-around. -/
def mul_i64 (x y : Int) : Int := to_i64 (x * y)

/-- The predicate "x is an `int32_t` value". -/
def is_i32 (x : Int) : Prop := -2 ^ 31 ≤ x ∧ x < 2 ^ 31

/-- The predicate "n is a `uint32_t` value". -/
def is_u32 (n : Nat) : Prop := n < 2 ^ 32

end CInt

open CInt

/-! ## Reference model of `Radix4_Implementation/Example.c` -/

namespace Radix4

/-- `return (uint32_t)((uint64_t)a * (uint64_t)b);` -/
def ref_mul_lo (a b : Nat) : Nat :=
  trunc_u32 (mul_u64 a b)

/-- `int64_t p = (int64_t)a * (int64_t)b; return (uint32_t)(p >> 32);` -/
def ref_mulh_ss (a b : Int) : Nat :=
  let p : Int := mul_i64 a b
  to_u32 (p >>> (32 : Nat))

/-- `int64_t p = (int64_t)a * (uint64_t)b; return (uint32_t)(p >> 32);`
The usual arithmetic conversions turn the `int64_t` operand into a `uint64_t`, the
product is taken modulo `2 ^ 64`, and the initialisation converts it to `int64_t`. -/
def ref_mulh_su (a : Int) (b : Nat) : Nat :=
  let p : Int := to_i64 (mul_u64 (to_u64 a) b)
  to_u32 (p >>> (32 : Nat))

/-- `uint64_t p = (uint64_t)a * (uint64_t)b; return (uint32_t)(p >> 32);` -/
def ref_mulh_uu (a b : Nat) : Nat :=
  let p : Nat := mul_u64 a b
  trunc_u32 (p >>> (32 : Nat))

end Radix4

/-! ## Reference model of `FastMultiplier_Files/multiplication example.c` -/

namespace FastMultiplier

/-- `return (uint32_t)((uint64_t)a * (uint64_t)b);` -/
def ref_mul_lo (a b : Nat) : Nat :=
  trunc_u32 (mul_u64 a b)

/-- `int64_t p=(int64_t)a*(int64_t)b; return (uint32_t)((uint64_t)p>>32);` -/
def ref_mulh_ss (a b : Int) : Nat :=
  let p : Int := mul_i64 a b
  trunc_u32 (to_u64 p >>> (32 : Nat))

/-- `int64_t p=(int64_t)a*(uint64_t)b; return (uint32_t)((uint64_t)p>>32);` -/
def ref_mulh_su (a : Int) (b : Nat) : Nat :=
  let p : Int := to_i64 (mul_u64 (to_u64 a) b)
  trunc_u32 (to_u64 p >>> (32 : Nat))

/-- `uint64_t p=(uint64_t)a*(uint64_t)b; return (uint32_t)(p>>32);` -/
def ref_mulh_uu (a b : Nat) : Nat :=
  let p : Nat := mul_u64 a b
  trunc_u32 (p >>> (32 : Nat))

end FastMultiplier

/-! ## Platform, events and programs

The programs never return: every path of every `main` ends in an empty endless loop.
A program is therefore run with a bound `fuel` on the number of iterations of each loop;
a run that exhausts the bound stops with `Res.timeout` and the events issued so far. -/

/-- Externally visible events of a run, in program order. -/
inductive Event where
  /-- A call of `neorv32_gpio_available()`. -/
  | avail
  /-- A call of `neorv32_gpio_port_set(v)`. -/
  | write (v : Nat)
  /-- One `.insn r opcode, funct3, funct7, rd, rs1, rs2` instruction, with the contents of the
  two source registers. -/
  | insn (opcode funct3 funct7 rs1 rs2 : Nat)
deriving DecidableEq, Repr

/-- An output write. -/
def Event.isWrite : Event → Bool
  | .write _ => true
  | _ => false

/-- The value of an output write. -/
def Event.written : Event → Option Nat
  | .write v => some v
  | _ => none

/-- A hardware instruction issued through `.insn`. -/
def Event.isInsn : Event → Bool
  | .insn _ _ _ _ _ => true
  | _ => false

/-- The platform under test: what the peripheral query answers, and what the hardware
delivers in the destination register of an R-type instruction. -/
structure Platform where
  /-- Return value of `neorv32_gpio_available()`. -/
  gpio_available : Int
  /-- Destination register value of `.insn r opcode, funct3, funct7, rd, rs1, rs2`. -/
  exec : (opcode funct3 funct7 rs1 rs2 : Nat) → Nat

/-- Outcome of a bounded run. -/
inductive Res (α : Type) where
  /-- The program fragment returned `a`. -/
  | done (a : α) (tr : List Event)
  /-- A loop was still running when the bound was reached. -/
  | timeout (tr : List Event)

/-- Events issued during the run. -/
def Res.trace {α : Type} : Res α → List Event
  | .done _ tr => tr
  | .timeout tr => tr

/-- Whether the program fragment returned. -/
def Res.returned {α : Type} : Res α → Bool
  | .done _ _ => true
  | .timeout _ => false

/-- Values written to the output port during the run, in order. -/
def Res.outputs {α : Type} (r : Res α) : List Nat :=
  r.trace.filterMap Event.written

/-- Number of hardware instructions issued during the run. -/
def Res.insn_count {α : Type} (r : Res α) : Nat :=
  r.trace.countP Event.isInsn

/-- Continue after a fragment that returned; a fragment that did not return ends the run. -/
def Res.andThen {α β : Type} (r : Res α) (k : α → List Event → Res β) : Res β :=
  match r with
  | .done a tr => k a tr
  | .timeout tr => .timeout tr

/-- A program fragment: from the loop bound and the events so far to an outcome. -/
def Prog (α : Type) : Type := Nat → List Event → Res α

/-- Return without an event. -/
def Prog.pure {α : Type} (a : α) : Prog α :=
  fun _ tr => .done a tr

/-- Sequential composition. -/
def Prog.bind {α β : Type} (m : Prog α) (k : α → Prog β) : Prog β :=
  fun fuel tr => (m fuel tr).andThen (fun a tr1 => k a fuel tr1)

instance : Monad Prog where
  pure := Prog.pure
  bind := Prog.bind

/-- Issue one event. -/
def emit (e : Event) : Prog Unit :=
  fun _ tr => .done () (tr ++ [e])

/-- Iterations of `for(;;){}`. -/
def forever.loop {α : Type} : Nat → List Event → Res α
  | 0, tr => .timeout tr
  | fuel + 1, tr => forever.loop fuel tr

/-- `for(;;){}` -/
def forever {α : Type} : Prog α :=
  fun fuel tr => forever.loop fuel tr

/-- Iterations of `for(uint32_t i = ...; i < n; i++) body`, from the counter value `i`
and the loop-carried variables `st`. The counter is a `uint32_t`: `i++` wraps. -/
def for_u32.loop {σ : Type} (n : Nat) (body : Nat → σ → Prog σ) :
    Nat → Nat → σ → List Event → Res σ
  | 0, _, _, tr => .timeout tr
  | fuel + 1, i, st, tr =>
    if i < n then
      (body i st fuel tr).andThen
        (fun st1 tr1 => for_u32.loop n body fuel (trunc_u32 (i + 1)) st1 tr1)
    else
      .done st tr

/-- `for(uint32_t i=0; i<n; i++) body` -/
def for_u32 {σ : Type} (n : Nat) (body : Nat → σ → Prog σ) (init : σ) : Prog σ :=
  fun fuel tr => for_u32.loop n body fuel 0 init tr

/-- `neorv32_gpio_available()` -/
def neorv32_gpio_available (P : Platform) : Prog Int := do
  emit Event.avail
  pure P.gpio_available

/-- `neorv32_gpio_port_set(v)` -/
def neorv32_gpio_port_set (v : Nat) : Prog Unit :=
  emit (Event.write v)

/-- `__asm__ volatile(".insn r opcode,funct3,funct7,%0,%1,%2" : "=r"(r) : "r"(a), "r"(b))`:
issues the instruction on the register contents a, b and yields the destination register. -/
def insn_r (P : Platform) (opcode funct3 funct7 a b : Nat) : Prog Nat := do
  emit (Event.insn opcode funct3 funct7 a b)
  pure (P.exec opcode funct3 funct7 a b)

/-- `__asm__ volatile("nop")` -/
def nop : Prog Unit := pure ()

/-- `for(volatile uint32_t i=0;i<n;i++){ __asm__ volatile("nop"); }`, the busy-wait of
`wait_loops(n)` and of the two delays of the stopwatch program. -/
def wait_loops (n : Nat) : Prog Unit :=
  for_u32 n (fun _ _ => nop) ()

/-- `leds |= bit` on a `uint8_t`. -/
def or_u8 (leds bit : Nat) : Nat := trunc_u8 (leds ||| bit)

namespace Radix4

/-- `.insn r 0x33,0,1,%0,%1,%2` on two `uint32_t` operands. -/
def hw_mul (P : Platform) (a b : Nat) : Prog Nat :=
  insn_r P 0x33 0 1 a b

/-- `.insn r 0x33,1,1,%0,%1,%2` on two `int32_t` operands. -/
def hw_mulh (P : Platform) (a b : Int) : Prog Nat :=
  insn_r P 0x33 1 1 (to_u32 a) (to_u32 b)

/-- `.insn r 0x33,2,1,%0,%1,%2` on an `int32_t` and a `uint32_t` operand. -/
def hw_mulhsu (P : Platform) (a : Int) (b : Nat) : Prog Nat :=
  insn_r P 0x33 2 1 (to_u32 a) b

/-- `.insn r 0x33,3,1,%0,%1,%2` on two `uint32_t` operands. -/
def hw_mulhu (P : Platform) (a b : Nat) : Prog Nat :=
  insn_r P 0x33 3 1 a b

/-- The status word of `main` (lines 68 to 96) as a function of the four hardware
results and the four reference results. -/
def status_word (hw0 sw0 hw1 sw1 hw2 sw2 hw3 sw3 : Nat) : Nat :=
  let leds : Nat := 0
  let leds := if hw0 = sw0 then or_u8 leds 0x80 else or_u8 leds 0x40
  let leds := if hw1 = sw1 then or_u8 leds 0x20 else or_u8 leds 0x10
  let leds := if hw2 = sw2 then or_u8 leds 0x08 else or_u8 leds 0x04
  let leds := if hw3 = sw3 then or_u8 leds 0x02 else or_u8 leds 0x01
  leds

/-- `int main(void)` of `Example.c`. -/
def main (P : Platform) : Prog Unit := do
  if (← neorv32_gpio_available P) = 0 then
    forever
  neorv32_gpio_port_set 0xAA; wait_loops 300000
  neorv32_gpio_port_set 0x55; wait_loops 300000
  neorv32_gpio_port_set 0x00; wait_loops 150000
  let u_a : Nat := 7
  let u_b : Nat := 3
  let s_a : Int := -7
  let s_b : Int := 3
  let leds : Nat := 0
  let hw ← hw_mul P u_a u_b
  let sw := ref_mul_lo u_a u_b
  let leds := if hw = sw then or_u8 leds 0x80 else or_u8 leds 0x40
  let hw ← hw_mulh P s_a s_b
  let sw := ref_mulh_ss s_a s_b
  let leds := if hw = sw then or_u8 leds 0x20 else or_u8 leds 0x10
  let hw ← hw_mulhsu P s_a u_b
  let sw := ref_mulh_su s_a u_b
  let leds := if hw = sw then or_u8 leds 0x08 else or_u8 leds 0x04
  let hw ← hw_mulhu P u_a u_b
  let sw := ref_mulh_uu u_a u_b
  let leds := if hw = sw then or_u8 leds 0x02 else or_u8 leds 0x01
  neorv32_gpio_port_set leds
  forever

end Radix4

namespace FastMultiplier

/-- `static inline void led(uint8_t v){ neorv32_gpio_port_set(v); }` -/
def led (v : Nat) : Prog Unit :=
  neorv32_gpio_port_set v

/-- `.insn r 0x33, 0, 1, %0, %1, %2` on two `uint32_t` operands. -/
def hw_mul (P : Platform) (a b : Nat) : Prog Nat :=
  insn_r P 0x33 0 1 a b

/-- `.insn r 0x33, 1, 1, %0, %1, %2` on two `int32_t` operands. -/
def hw_mulh (P : Platform) (a b : Int) : Prog Nat :=
  insn_r P 0x33 1 1 (to_u32 a) (to_u32 b)

/-- `.insn r 0x33, 2, 1, %0, %1, %2` on an `int32_t` and a `uint32_t` operand. -/
def hw_mulhsu (P : Platform) (a : Int) (b : Nat) : Prog Nat :=
  insn_r P 0x33 2 1 (to_u32 a) b

/-- `.insn r 0x33, 3, 1, %0, %1, %2` on two `uint32_t` operands. -/
def hw_mulhu (P : Platform) (a b : Nat) : Prog Nat :=
  insn_r P 0x33 3 1 a b

/-- `(hw == ref) ? 1u : 0u` stored in a `uint8_t`. -/
def pass_flag (hw sw : Nat) : Nat :=
  if hw = sw then 1 else 0

/-- The status word of `main` (lines 49 to 53) as a function of the four pass flags. -/
def encode (t0_pass t1_pass t2_pass t3_pass : Nat) : Nat :=
  let leds : Nat := 0
  let leds := or_u8 leds (if t0_pass ≠ 0 then 0x80 else 0x40)
  let leds := or_u8 leds (if t1_pass ≠ 0 then 0x20 else 0x10)
  let leds := or_u8 leds (if t2_pass ≠ 0 then 0x08 else 0x04)
  let leds := or_u8 leds (if t3_pass ≠ 0 then 0x02 else 0x01)
  leds

/-- The status word of `main` (lines 39 to 53) as a function of the four hardware
results and the four reference results. -/
def status_word (hw0 sw0 hw1 sw1 hw2 sw2 hw3 sw3 : Nat) : Nat :=
  encode (pass_flag hw0 sw0) (pass_flag hw1 sw1) (pass_flag hw2 sw2) (pass_flag hw3 sw3)

/-- `int main(void)` of `multiplication example.c`. -/
def main (P : Platform) : Prog Unit := do
  led 0xAA; wait_loops 300000
  led 0x55; wait_loops 300000
  led 0x00; wait_loops 150000
  let sa : Int := -7
  let sb : Int := 3
  let ua : Nat := 7
  let ub : Nat := 3
  let t0_pass := pass_flag (← hw_mul P ua ub) (ref_mul_lo ua ub)
  let t1_pass := pass_flag (← hw_mulh P sa sb) (ref_mulh_ss sa sb)
  let t2_pass := pass_flag (← hw_mulhsu P sa ub) (ref_mulh_su sa ub)
  let t3_pass := pass_flag (← hw_mulhu P ua ub) (ref_mulh_uu ua ub)
  let leds : Nat := 0
  let leds := or_u8 leds (if t0_pass ≠ 0 then 0x80 else 0x40)
  let leds := or_u8 leds (if t1_pass ≠ 0 then 0x20 else 0x10)
  let leds := or_u8 leds (if t2_pass ≠ 0 then 0x08 else 0x04)
  let leds := or_u8 leds (if t3_pass ≠ 0 then 0x02 else 0x01)
  led leds
  forever

end FastMultiplier

namespace StressTest

/-- `#define N_BLOCKS 1800000u`, the default when the build does not define it. -/
def N_BLOCKS : Nat := 1800000

/-- `static inline void leds(uint8_t v){ neorv32_gpio_port_set(v); }` -/
def leds (v : Nat) : Prog Unit :=
  neorv32_gpio_port_set v

/-- `.insn r 0x33,0,1,%0,%1,%2` on two `uint32_t` operands. -/
def mul_u32 (P : Platform) (a b : Nat) : Prog Nat :=
  insn_r P 0x33 0 1 a b

/-- Body of the workload loop of `main` (lines 36 to 53) for the counter value `i`;
the loop-carried variables are `s` and `a`, and `b` is never assigned. -/
def block (P : Platform) (b : Nat) (i : Nat) (st : Nat × Nat) : Prog (Nat × Nat) := do
  let s := st.1
  let a := st.2
  let s ← mul_u32 P s b
  let s ← mul_u32 P s b
  let s ← mul_u32 P s b
  let s ← mul_u32 P s b
  let s ← mul_u32 P s b
  let s ← mul_u32 P s b
  let s ← mul_u32 P s b
  let s ← mul_u32 P s b
  let s ← mul_u32 P s a
  let s ← mul_u32 P s a
  let s ← mul_u32 P s a
  let s ← mul_u32 P s a
  let s ← mul_u32 P s a
  let s ← mul_u32 P s a
  let s ← mul_u32 P s a
  let s ← mul_u32 P s a
  let a := a ^^^ (i ||| 1)
  pure (s, a)

/-- `int main(void)` of `StressTestExample.c`, with `N_BLOCKS` set to `n`. -/
def main (P : Platform) (n : Nat) : Prog Unit := do
  if (← neorv32_gpio_available P) = 0 then
    forever
  leds 0xFF
  wait_loops (50 * 1000000 / 20)
  leds 0x00
  wait_loops (50 * 1000000 / 20)
  let a : Nat := 0xDEADBEEF
  let b : Nat := 0x9E3779B9
  let s : Nat := 1
  let _ ← for_u32 n (block P b) (s, a)
  leds 0xFF
  forever

end StressTest

/-! ## Closed forms used to describe runs -/

/-- Loop-carried variables after `k` iterations that start at the counter value `i`,
for a loop body whose effect on the variables is `step`. -/
def iter_state {σ : Type} (step : Nat → σ → σ) : Nat → Nat → σ → σ
  | 0, _, st => st
  | k + 1, i, st => iter_state step k (i + 1) (step i st)

/-- Events of `k` iterations that start at the counter value `i`, for a loop body whose
effect on the variables is `step` and whose events are `out`. -/
def iter_events {σ : Type} (step : Nat → σ → σ) (out : Nat → σ → List Event) :
    Nat → Nat → σ → List Event
  | 0, _, _ => []
  | k + 1, i, st => out i st ++ iter_events step out k (i + 1) (step i st)

namespace StressTest

/-- Values of `s` and `a` at the end of one pass through the workload block. -/
def block_result (P : Platform) (b : Nat) (i : Nat) (st : Nat × Nat) : Nat × Nat :=
  match block P b i st 0 [] with
  | .done r _ => r
  | .timeout _ => st

/-- Events of one pass through the workload block. -/
def block_events (P : Platform) (b : Nat) (i : Nat) (st : Nat × Nat) : List Event :=
  (block P b i st 0 []).trace

end StressTest

/-! ## Measures used to state properties of words -/

/-- Number of set bits among the low `width` bits of `w`. -/
def popcount : Nat → Nat → Nat
  | 0, _ => 0
  | width + 1, w => w % 2 + popcount width (w / 2)

/-- Modelled from the spec: the instruction encoding of its section 6 (a register-register
instruction with a 7-bit primary opcode, a 3-bit function-select field, a 7-bit function-group
field, two source registers and one destination register), which the sources only name
through the assembler directive `.insn r opcode, funct3, funct7, rd, rs1, rs2`. The layout is
the RISC-V R-type format: funct7 in bits 31 to 25, rs2 in bits 24 to 20, rs1 in bits 19 to 15,
funct3 in bits 14 to 12, rd in bits 11 to 7 and the opcode in bits 6 to 0. Here rd, rs1, rs2
are the numbers of the registers that the compiler assigns to `%0`, `%1`, `%2`. -/
def insn_r_word (opcode funct3 funct7 rd rs1 rs2 : Nat) : Nat :=
  funct7 * 2 ^ 25 + rs2 * 2 ^ 20 + rs1 * 2 ^ 15 + funct3 * 2 ^ 12 + rd * 2 ^ 7 + opcode

/-- Primary opcode of an instruction word, bits 6 to 0. -/
def word_opcode (w : Nat) : Nat := w % 2 ^ 7

/-- Function-select field of an R-type instruction word, bits 14 to 12. -/
def word_funct3 (w : Nat) : Nat := (w / 2 ^ 12) % 2 ^ 3

/-- Function-group field of an R-type instruction word, bits 31 to 25. -/
def word_funct7 (w : Nat) : Nat := (w / 2 ^ 25) % 2 ^ 7

/-- Instruction word of an instruction event under the register assignment rd, rs1, rs2. -/
def Event.word (rd rs1 rs2 : Nat) : Event → Option Nat
  | .insn opcode funct3 funct7 _ _ => some (insn_r_word opcode funct3 funct7 rd rs1 rs2)
  | _ => none

/-- Opcode, funct3 and funct7 fields of an instruction word. -/
def word_fields (w : Nat) : Nat × Nat × Nat :=
  (word_opcode w, word_funct3 w, word_funct7 w)

/-- Instruction words issued during a run, in order, under the register assignment
rd, rs1, rs2. -/
def Res.words {α : Type} (rd rs1 rs2 : Nat) (r : Res α) : List Nat :=
  r.trace.filterMap (Event.word rd rs1 rs2)

/-! ## Architectural results of the RV32M multiply instructions

The value that the RISC-V instruction set prescribes for the destination register of
MUL, MULH, MULHSU and MULHU, as a function of the contents of the two source registers.
A platform is correct when its multiplier delivers these values. -/

/-- Contents of a 32-bit register read as a two's complement integer. -/
def CInt.as_i32 (n : Nat) : Int :=
  if n % 2 ^ 32 < 2 ^ 31 then ((n % 2 ^ 32 : Nat) : Int) else ((n % 2 ^ 32 : Nat) : Int) - 2 ^ 32

namespace RV32M

/-- MUL: the low 32 bits of the product. -/
def mul (rs1 rs2 : Nat) : Nat := (rs1 * rs2) % 2 ^ 32

/-- MULH: the high 32 bits of the signed by signed product. -/
def mulh (rs1 rs2 : Nat) : Nat := to_u32 (Int.fdiv (as_i32 rs1 * as_i32 rs2) (2 ^ 32))

/-- MULHSU: the high 32 bits of the signed by unsigned product. -/
def mulhsu (rs1 rs2 : Nat) : Nat := to_u32 (Int.fdiv (as_i32 rs1 * (rs2 : Int)) (2 ^ 32))

/-- MULHU: the high 32 bits of the unsigned by unsigned product. -/
def mulhu (rs1 rs2 : Nat) : Nat := ((rs1 * rs2) / 2 ^ 32) % 2 ^ 32

/-- The multiplier of the platform delivers the architectural result of all four
instructions on all register contents. -/
def correct (P : Platform) : Prop :=
  ∀ rs1 rs2 : Nat, rs1 < 2 ^ 32 → rs2 < 2 ^ 32 →
    P.exec 0x33 0 1 rs1 rs2 = mul rs1 rs2 ∧
    P.exec 0x33 1 1 rs1 rs2 = mulh rs1 rs2 ∧
    P.exec 0x33 2 1 rs1 rs2 = mulhsu rs1 rs2 ∧
    P.exec 0x33 3 1 rs1 rs2 = mulhu rs1 rs2

/-- A platform with the output peripheral present and a correct multiplier. -/
def reference_platform : Platform :=
  Platform.mk 1 (fun _ funct3 _ rs1 rs2 =>
    if funct3 = 0 then mul rs1 rs2
    else if funct3 = 1 then mulh rs1 rs2
    else if funct3 = 2 then mulhsu rs1 rs2
    else mulhu rs1 rs2)

end RV32M

/-! ## Arithmetic facts shared by the proofs -/

theorem CInt.i32_mul_i32_bounds (a b : Int) (ha : is_i32 a) (hb : is_i32 b) :
    -2 ^ 62 < a * b ∧ a * b ≤ 2 ^ 62 := by
  obtain ⟨ha1, ha2⟩ := ha
  obtain ⟨hb1, hb2⟩ := hb
  constructor <;> nlinarith

theorem CInt.i32_mul_u32_bounds (a : Int) (b : Nat) (ha : is_i32 a) (hb : is_u32 b) :
    -2 ^ 63 < a * (b : Int) ∧ a * (b : Int) < 2 ^ 63 := by
  obtain ⟨ha1, ha2⟩ := ha
  have hb1 : (0 : Int) ≤ (b : Int) := Int.ofNat_nonneg b
  have hb2 : (b : Int) < 2 ^ 32 := by
    unfold is_u32 at hb
    exact_mod_cast hb
  constructor <;> nlinarith

theorem CInt.to_i64_of_range (x : Int) (h1 : -2 ^ 63 ≤ x) (h2 : x < 2 ^ 63) : to_i64 x = x := by
  unfold to_i64
  split <;> omega

theorem CInt.to_i64_emod (x : Int) : to_i64 (x % 2 ^ 64) = to_i64 x := by
  unfold to_i64
  rw [Int.emod_emod_of_dvd x (dvd_refl _)]

theorem CInt.to_u64_cast (x : Int) : ((to_u64 x : Nat) : Int) = x % 2 ^ 64 := by
  unfold to_u64
  exact Int.toNat_of_nonneg (Int.emod_nonneg x (by norm_num))

theorem CInt.to_u32_cast (x : Int) : ((to_u32 x : Nat) : Int) = x % 2 ^ 32 := by
  unfold to_u32
  exact Int.toNat_of_nonneg (Int.emod_nonneg x (by norm_num))

theorem CInt.mul_u64_to_u64_cast (a : Int) (b : Nat) :
    ((mul_u64 (to_u64 a) b : Nat) : Int) = (a * (b : Int)) % 2 ^ 64 := by
  have h : ((mul_u64 (to_u64 a) b : Nat) : Int)
      = ((to_u64 a : Nat) : Int) * (b : Int) % 2 ^ 64 := by
    unfold mul_u64
    push_cast
    rfl
  rw [h, to_u64_cast, Int.mul_emod (a % 2 ^ 64), Int.emod_emod_of_dvd a (dvd_refl _),
    ← Int.mul_emod]

theorem CInt.asr32_eq_ediv (x : Int) : x >>> (32 : Nat) = x / 2 ^ 32 := by
  rw [Int.shiftRight_eq_div_pow]
  norm_num

theorem CInt.fdiv_two_pow (x : Int) : Int.fdiv x (2 ^ 32) = x / 2 ^ 32 :=
  Int.fdiv_eq_ediv x (by norm_num)

/-- The stored `int64_t` product of `ref_mulh_su` is the exact product. -/
theorem CInt.su_product_exact (a : Int) (b : Nat) (ha : is_i32 a) (hb : is_u32 b) :
    to_i64 (mul_u64 (to_u64 a) b) = a * (b : Int) := by
  obtain ⟨h1, h2⟩ := i32_mul_u32_bounds a b ha hb
  rw [mul_u64_to_u64_cast, to_i64_emod]
  exact to_i64_of_range _ (le_of_lt h1) h2

/-- The `int64_t` product of `ref_mulh_ss` is the exact product. -/
theorem CInt.ss_product_exact (a b : Int) (ha : is_i32 a) (hb : is_i32 b) :
    mul_i64 a b = a * b := by
  obtain ⟨h1, h2⟩ := i32_mul_i32_bounds a b ha hb
  unfold mul_i64
  exact to_i64_of_range _ (by omega) (by omega)

/-- High half of an in-range signed product by a logical shift of its `uint64_t` image. -/
theorem CInt.lsr32_to_u64_cast (x : Int) :
    ((trunc_u32 (to_u64 x >>> (32 : Nat)) : Nat) : Int) = x / 2 ^ 32 % 2 ^ 32 := by
  unfold trunc_u32
  rw [Nat.shiftRight_eq_div_pow]
  push_cast
  rw [to_u64_cast]
  omega

/-! ## Running program fragments -/

theorem Res.andThen_done {α β : Type} (a : α) (tr : List Event)
    (k : α → List Event → Res β) :
    (Res.done a tr).andThen k = k a tr := rfl

theorem Res.andThen_timeout {α β : Type} (tr : List Event) (k : α → List Event → Res β) :
    (Res.timeout tr : Res α).andThen k = .timeout tr := rfl

theorem run_bind {α β : Type} (m : Prog α) (k : α → Prog β) (fuel : Nat) (tr : List Event) :
    (m >>= k) fuel tr = (m fuel tr).andThen (fun a tr1 => k a fuel tr1) := rfl

theorem run_pure {α : Type} (a : α) (fuel : Nat) (tr : List Event) :
    (pure a : Prog α) fuel tr = .done a tr := rfl

theorem run_ite {α : Type} (c : Prop) [Decidable c] (m1 m2 : Prog α) (fuel : Nat)
    (tr : List Event) :
    (if c then m1 else m2) fuel tr = if c then m1 fuel tr else m2 fuel tr := by
  split <;> rfl

theorem forever_run {α : Type} (fuel : Nat) (tr : List Event) :
    (forever : Prog α) fuel tr = .timeout tr := by
  unfold forever
  induction fuel with
  | zero => rfl
  | succ k ih => simpa [forever.loop] using ih

theorem insn_r_run (P : Platform) (o f3 f7 a b fuel : Nat) (tr : List Event) :
    insn_r P o f3 f7 a b fuel tr
      = .done (P.exec o f3 f7 a b) (tr ++ [Event.insn o f3 f7 a b]) := rfl

theorem neorv32_gpio_available_run (P : Platform) (fuel : Nat) (tr : List Event) :
    neorv32_gpio_available P fuel tr = .done P.gpio_available (tr ++ [Event.avail]) := rfl

theorem neorv32_gpio_port_set_run (v fuel : Nat) (tr : List Event) :
    neorv32_gpio_port_set v fuel tr = .done () (tr ++ [Event.write v]) := rfl

/-- A counted loop whose bound is a `uint32_t` value and whose body always returns: with
more fuel than iterations it returns after exactly `n - i` iterations, with less it has
run `fuel` iterations when the bound is reached. -/
theorem for_u32.loop_run {σ : Type} (n : Nat) (body : Nat → σ → Prog σ)
    (step : Nat → σ → σ) (out : Nat → σ → List Event)
    (hbody : ∀ i st fuel tr, body i st fuel tr = .done (step i st) (tr ++ out i st))
    (hn : n < 2 ^ 32) (fuel : Nat) :
    ∀ (i : Nat) (st : σ) (tr : List Event), i ≤ n →
      for_u32.loop n body fuel i st tr =
        if n - i < fuel then
          .done (iter_state step (n - i) i st) (tr ++ iter_events step out (n - i) i st)
        else
          .timeout (tr ++ iter_events step out fuel i st) := by
  induction fuel with
  | zero =>
    intro i st tr _
    simp [for_u32.loop, iter_events]
  | succ f ih =>
    intro i st tr hi
    rcases Nat.lt_or_ge i n with h | h
    · have hw : trunc_u32 (i + 1) = i + 1 := by
        unfold trunc_u32
        omega
      have hk : n - i = (n - (i + 1)) + 1 := by omega
      simp only [for_u32.loop, if_pos h, hbody, Res.andThen_done, hw]
      rw [ih (i + 1) (step i st) _ (by omega), hk]
      simp only [iter_state, iter_events, List.append_assoc, Nat.add_lt_add_iff_right]
    · have hk : n - i = 0 := by omega
      have hlt : ¬ i < n := by omega
      simp [for_u32.loop, hlt, hk, iter_state, iter_events]

/-- A counted loop whose bound exceeds every `uint32_t` value never returns. -/
theorem for_u32.loop_diverges {σ : Type} (n : Nat) (body : Nat → σ → Prog σ)
    (hn : 2 ^ 32 ≤ n) (fuel : Nat) :
    ∀ (i : Nat) (st : σ) (tr : List Event), i < 2 ^ 32 →
      (for_u32.loop n body fuel i st tr).returned = false := by
  induction fuel with
  | zero =>
    intro i st tr _
    rfl
  | succ f ih =>
    intro i st tr hi
    have h : i < n := by omega
    have hw : trunc_u32 (i + 1) < 2 ^ 32 := by
      unfold trunc_u32
      omega
    simp only [for_u32.loop, if_pos h]
    cases hb : body i st f tr with
    | done st1 tr1 => exact ih _ st1 tr1 hw
    | timeout tr1 => rfl

/-- Every event a counted loop adds to the trace is an event of its body. -/
theorem for_u32.loop_trace {σ : Type} (n : Nat) (body : Nat → σ → Prog σ)
    (step : Nat → σ → σ) (out : Nat → σ → List Event) (Q : Event → Prop)
    (hbody : ∀ i st fuel tr, body i st fuel tr = .done (step i st) (tr ++ out i st))
    (hout : ∀ i st, ∀ e ∈ out i st, Q e) (fuel : Nat) :
    ∀ (i : Nat) (st : σ) (tr : List Event),
      ∃ m, (for_u32.loop n body fuel i st tr).trace = tr ++ m ∧ ∀ e ∈ m, Q e := by
  induction fuel with
  | zero =>
    intro i st tr
    exact ⟨[], by simp [for_u32.loop, Res.trace], by simp⟩
  | succ f ih =>
    intro i st tr
    by_cases h : i < n
    · obtain ⟨m, hm, hq⟩ := ih (trunc_u32 (i + 1)) (step i st) (tr ++ out i st)
      refine ⟨out i st ++ m, ?_, ?_⟩
      · simp only [for_u32.loop, if_pos h, hbody, Res.andThen_done, hm, List.append_assoc]
      · intro e he
        rcases List.mem_append.mp he with h1 | h1
        · exact hout i st e h1
        · exact hq e h1
    · exact ⟨[], by simp [for_u32.loop, h, Res.trace], by simp⟩

theorem iter_events_nil {σ : Type} (step : Nat → σ → σ) (k : Nat) :
    ∀ (i : Nat) (st : σ), iter_events step (fun _ _ => []) k i st = [] := by
  induction k with
  | zero =>
    intro i st
    rfl
  | succ k ih =>
    intro i st
    simp [iter_events, ih]

/-- The busy-wait returns, without an event, as soon as the bound exceeds its count. -/
theorem wait_loops_run (n : Nat) (hn : n < 2 ^ 32) (fuel : Nat) (tr : List Event) :
    wait_loops n fuel tr = if n < fuel then .done () tr else .timeout tr := by
  have h := for_u32.loop_run n (fun _ _ => nop) (fun _ st => st) (fun _ _ => [])
    (by intro i st fuel tr; simp [nop, run_pure]) hn fuel 0 () tr (Nat.zero_le n)
  simpa [wait_loops, for_u32, iter_events_nil] using h

/-! ## Runs of the three programs -/

/-- Run of the verification program of `Example.c` with the output peripheral present. -/
theorem Radix4.main_run (P : Platform) (hP : P.gpio_available ≠ 0) (fuel : Nat) :
    Radix4.main P fuel [] =
      if 300000 < fuel then
        .timeout [Event.avail, Event.write 0xAA, Event.write 0x55, Event.write 0x00,
          Event.insn 0x33 0 1 7 3, Event.insn 0x33 1 1 (to_u32 (-7)) (to_u32 3),
          Event.insn 0x33 2 1 (to_u32 (-7)) 3, Event.insn 0x33 3 1 7 3,
          Event.write (Radix4.status_word
            (P.exec 0x33 0 1 7 3) (Radix4.ref_mul_lo 7 3)
            (P.exec 0x33 1 1 (to_u32 (-7)) (to_u32 3)) (Radix4.ref_mulh_ss (-7) 3)
            (P.exec 0x33 2 1 (to_u32 (-7)) 3) (Radix4.ref_mulh_su (-7) 3)
            (P.exec 0x33 3 1 7 3) (Radix4.ref_mulh_uu 7 3))]
      else
        .timeout [Event.avail, Event.write 0xAA] := by
  by_cases hf : 300000 < fuel
  · have hf2 : 150000 < fuel := by omega
    simp [Radix4.main, run_bind, run_pure, run_ite, neorv32_gpio_available_run,
      neorv32_gpio_port_set_run, Res.andThen_done, Res.andThen_timeout, hP, wait_loops_run,
      hf, hf2, Radix4.hw_mul, Radix4.hw_mulh, Radix4.hw_mulhsu, Radix4.hw_mulhu, insn_r_run,
      forever_run, Radix4.status_word]
  · simp [Radix4.main, run_bind, run_pure, run_ite, neorv32_gpio_available_run,
      neorv32_gpio_port_set_run, Res.andThen_done, Res.andThen_timeout, hP, wait_loops_run,
      hf]

/-- Without the peripheral the verification program of `Example.c` only queries it. -/
theorem Radix4.main_absent (P : Platform) (hP : P.gpio_available = 0) (fuel : Nat) :
    Radix4.main P fuel [] = .timeout [Event.avail] := by
  simp [Radix4.main, run_bind, run_ite, neorv32_gpio_available_run, Res.andThen_done,
    Res.andThen_timeout, hP, forever_run]

/-- Run of the verification program of `multiplication example.c` on any platform. -/
theorem FastMultiplier.fast_main_run (P : Platform) (fuel : Nat) :
    FastMultiplier.main P fuel [] =
      if 300000 < fuel then
        .timeout [Event.write 0xAA, Event.write 0x55, Event.write 0x00,
          Event.insn 0x33 0 1 7 3, Event.insn 0x33 1 1 (to_u32 (-7)) (to_u32 3),
          Event.insn 0x33 2 1 (to_u32 (-7)) 3, Event.insn 0x33 3 1 7 3,
          Event.write (FastMultiplier.status_word
            (P.exec 0x33 0 1 7 3) (FastMultiplier.ref_mul_lo 7 3)
            (P.exec 0x33 1 1 (to_u32 (-7)) (to_u32 3)) (FastMultiplier.ref_mulh_ss (-7) 3)
            (P.exec 0x33 2 1 (to_u32 (-7)) 3) (FastMultiplier.ref_mulh_su (-7) 3)
            (P.exec 0x33 3 1 7 3) (FastMultiplier.ref_mulh_uu 7 3))]
      else
        .timeout [Event.write 0xAA] := by
  by_cases hf : 300000 < fuel
  · have hf2 : 150000 < fuel := by omega
    simp [FastMultiplier.main, FastMultiplier.led, run_bind, run_pure,
      neorv32_gpio_port_set_run, Res.andThen_done, Res.andThen_timeout, wait_loops_run,
      hf, hf2, FastMultiplier.hw_mul, FastMultiplier.hw_mulh, FastMultiplier.hw_mulhsu,
      FastMultiplier.hw_mulhu, insn_r_run, forever_run, FastMultiplier.status_word,
      FastMultiplier.encode]
  · simp [FastMultiplier.main, FastMultiplier.led, run_bind, run_pure,
      neorv32_gpio_port_set_run, Res.andThen_done, Res.andThen_timeout, wait_loops_run, hf]

/-- Without the peripheral the stopwatch program only queries it. -/
theorem StressTest.stopwatch_absent (P : Platform) (n : Nat) (hP : P.gpio_available = 0)
    (fuel : Nat) :
    StressTest.main P n fuel [] = .timeout [Event.avail] := by
  simp [StressTest.main, run_bind, run_ite, neorv32_gpio_available_run, Res.andThen_done,
    Res.andThen_timeout, hP, forever_run]

/-- One workload block always returns, whatever the bound and the earlier events. -/
theorem StressTest.block_run (P : Platform) (b i : Nat) (st : Nat × Nat) (fuel : Nat)
    (tr : List Event) :
    StressTest.block P b i st fuel tr
      = .done (StressTest.block_result P b i st) (tr ++ StressTest.block_events P b i st) := by
  simp [StressTest.block, StressTest.block_result, StressTest.block_events, StressTest.mul_u32,
    run_bind, run_pure, insn_r_run, Res.andThen_done, Res.trace]

/-- One workload block issues hardware instructions only. -/
theorem StressTest.block_events_insn (P : Platform) (b i : Nat) (st : Nat × Nat) :
    ∀ e ∈ StressTest.block_events P b i st, e.isInsn = true := by
  simp [StressTest.block, StressTest.block_events, StressTest.mul_u32,
    run_bind, run_pure, insn_r_run, Res.andThen_done, Res.trace, Event.isInsn]

/-- One workload block issues sixteen events. -/
theorem StressTest.block_events_length (P : Platform) (b i : Nat) (st : Nat × Nat) :
    (StressTest.block_events P b i st).length = 16 := by
  simp [StressTest.block, StressTest.block_events, StressTest.mul_u32,
    run_bind, run_pure, insn_r_run, Res.andThen_done, Res.trace]

/-- The events of k workload blocks are 16 k hardware instructions. -/
theorem StressTest.workload_events (P : Platform) (b k : Nat) :
    ∀ (i : Nat) (st : Nat × Nat),
      (iter_events (StressTest.block_result P b) (StressTest.block_events P b) k i st).length
        = 16 * k ∧
      ∀ e ∈ iter_events (StressTest.block_result P b) (StressTest.block_events P b) k i st,
        e.isInsn = true := by
  induction k with
  | zero =>
    intro i st
    simp [iter_events]
  | succ k ih =>
    intro i st
    obtain ⟨h1, h2⟩ := ih (i + 1) (StressTest.block_result P b i st)
    constructor
    · simp only [iter_events, List.length_append, h1, StressTest.block_events_length]
      omega
    · intro e he
      simp only [iter_events] at he
      rcases List.mem_append.mp he with h | h
      · exact StressTest.block_events_insn P b i st e h
      · exact h2 e h

/-- With the peripheral present and the two dwells completed, the stopwatch program is
its workload loop followed by the end marker. -/
theorem StressTest.main_after_dwell (P : Platform) (n : Nat) (hP : P.gpio_available ≠ 0)
    (fuel : Nat) (hf : 2500000 < fuel) :
    StressTest.main P n fuel [] =
      (for_u32.loop n (StressTest.block P 0x9E3779B9) fuel 0 (1, 0xDEADBEEF)
          [Event.avail, Event.write 0xFF, Event.write 0x00]).andThen
        (fun _ tr1 => .timeout (tr1 ++ [Event.write 0xFF])) := by
  simp [StressTest.main, StressTest.leds, run_bind, run_pure, run_ite, neorv32_gpio_available_run,
    neorv32_gpio_port_set_run, Res.andThen_done, Res.andThen_timeout, hP, wait_loops_run,
    hf, forever_run, for_u32]

/-- With the peripheral present and at most 2500000 iterations allowed, the stopwatch program
is still in its first dwell. -/
theorem StressTest.main_in_dwell (P : Platform) (n : Nat) (hP : P.gpio_available ≠ 0)
    (fuel : Nat) (hf : fuel ≤ 2500000) :
    StressTest.main P n fuel [] = .timeout [Event.avail, Event.write 0xFF] := by
  have hf1 : ¬ 2500000 < fuel := by omega
  simp [StressTest.main, StressTest.leds, run_bind, run_pure, run_ite, neorv32_gpio_available_run,
    neorv32_gpio_port_set_run, Res.andThen_done, Res.andThen_timeout, hP, wait_loops_run,
    hf1]

/-- Shape of every bounded run of the stopwatch program with the peripheral present. -/
theorem StressTest.main_shape (P : Platform) (n : Nat) (hP : P.gpio_available ≠ 0)
    (fuel : Nat) :
    ∃ m : List Event, (∀ e ∈ m, e.isInsn = true) ∧
      ((StressTest.main P n fuel []).trace = [Event.avail, Event.write 0xFF] ∨
       (StressTest.main P n fuel []).trace
          = [Event.avail, Event.write 0xFF, Event.write 0x00] ++ m ∨
       ((StressTest.main P n fuel []).trace
          = [Event.avail, Event.write 0xFF, Event.write 0x00] ++ m ++ [Event.write 0xFF] ∧
        m.length = 16 * n)) := by
  rcases Nat.lt_or_ge 2500000 fuel with hf | hf
  · rw [StressTest.main_after_dwell P n hP fuel hf]
    rcases Nat.lt_or_ge n (2 ^ 32) with hn | hn
    · rw [for_u32.loop_run n _ _ _ (StressTest.block_run P _) hn fuel 0 _ _ (Nat.zero_le n)]
      by_cases hlt : n - 0 < fuel
      · obtain ⟨h1, h2⟩ := StressTest.workload_events P 0x9E3779B9 (n - 0) 0 (1, 0xDEADBEEF)
        refine ⟨_, h2, Or.inr (Or.inr ⟨?_, ?_⟩)⟩
        · simp only [if_pos hlt, Res.andThen_done, Res.trace]
        · simpa using h1
      · obtain ⟨_, h2⟩ := StressTest.workload_events P 0x9E3779B9 fuel 0 (1, 0xDEADBEEF)
        refine ⟨_, h2, Or.inr (Or.inl ?_)⟩
        simp only [if_neg hlt, Res.andThen_timeout, Res.trace]
    · have hd := for_u32.loop_diverges n (StressTest.block P 0x9E3779B9) hn fuel 0
        (1, 0xDEADBEEF) [Event.avail, Event.write 0xFF, Event.write 0x00] (by norm_num)
      obtain ⟨m, hm, hq⟩ := for_u32.loop_trace n (StressTest.block P 0x9E3779B9) _ _
        (fun e => e.isInsn = true) (StressTest.block_run P _)
        (StressTest.block_events_insn P _) fuel 0 (1, 0xDEADBEEF)
        [Event.avail, Event.write 0xFF, Event.write 0x00]
      refine ⟨m, hq, Or.inr (Or.inl ?_)⟩
      cases hr : for_u32.loop n (StressTest.block P 0x9E3779B9) fuel 0 (1, 0xDEADBEEF)
          [Event.avail, Event.write 0xFF, Event.write 0x00] with
      | done a tr1 =>
        rw [hr] at hd
        simp [Res.returned] at hd
      | timeout tr1 =>
        rw [hr] at hm
        simpa [Res.andThen_timeout, Res.trace] using hm
  · exact ⟨[], by simp, Or.inl (by rw [StressTest.main_in_dwell P n hP fuel hf]; rfl)⟩

/-- In a list of hardware instructions every event counts as one. -/
theorem insn_list_countP (m : List Event) (h : ∀ e ∈ m, e.isInsn = true) :
    m.countP Event.isInsn = m.length :=
  List.countP_eq_length.mpr h

/-- A list of hardware instructions holds no output write. -/
theorem insn_list_no_write (m : List Event) (h : ∀ e ∈ m, e.isInsn = true) (v : Nat) :
    m.count (Event.write v) = 0 := by
  apply List.count_eq_zero.mpr
  intro hmem
  have := h _ hmem
  simp [Event.isInsn] at this

/-- A list of hardware instructions writes nothing to the output port. -/
theorem insn_list_outputs (m : List Event) (h : ∀ e ∈ m, e.isInsn = true) :
    m.filterMap Event.written = [] := by
  apply List.filterMap_eq_nil_iff.mpr
  intro e he
  have := h e he
  cases e <;> simp_all [Event.isInsn, Event.written]

/-! ## The reference model computes the architectural results -/

/-- C1. For every `int32_t` a and `uint32_t` b, `ref_mulh_su a b` of both verification
programs is the high 32 bits of the exact product: `floor (a * b / 2 ^ 32) mod 2 ^ 32`,
with a taken as a signed and b as a non-negative integer, although the product is computed
modulo `2 ^ 64` as unsigned and converted back to `int64_t`. -/
theorem ref_mulh_su_correct (a : Int) (b : Nat) (ha : is_i32 a) (hb : is_u32 b) :
    (Radix4.ref_mulh_su a b : Int) = Int.fdiv (a * (b : Int)) (2 ^ 32) % 2 ^ 32 ∧
    (FastMultiplier.ref_mulh_su a b : Int) = Int.fdiv (a * (b : Int)) (2 ^ 32) % 2 ^ 32 := by
  have hp := su_product_exact a b ha hb
  constructor
  · simp only [Radix4.ref_mulh_su]
    rw [hp, to_u32_cast, asr32_eq_ediv, fdiv_two_pow]
  · simp only [FastMultiplier.ref_mulh_su]
    rw [hp, lsr32_to_u64_cast, fdiv_two_pow]

/-- Instance of C1 at the most negative a and the largest b. -/
theorem ref_mulh_su_correct_witness :
    (is_i32 (-2 ^ 31) ∧ is_u32 (2 ^ 32 - 1)) ∧
    (Radix4.ref_mulh_su (-2 ^ 31) (2 ^ 32 - 1) : Int)
        = Int.fdiv (-2 ^ 31 * ((2 ^ 32 - 1 : Nat) : Int)) (2 ^ 32) % 2 ^ 32 ∧
    (FastMultiplier.ref_mulh_su (-2 ^ 31) (2 ^ 32 - 1) : Int)
        = Int.fdiv (-2 ^ 31 * ((2 ^ 32 - 1 : Nat) : Int)) (2 ^ 32) % 2 ^ 32 :=
  ⟨⟨by unfold is_i32; norm_num, by unfold is_u32; norm_num⟩,
    ref_mulh_su_correct (-2 ^ 31) (2 ^ 32 - 1) (by unfold is_i32; norm_num)
      (by unfold is_u32; norm_num)⟩

/-- C2. For every pair of `int32_t` values a, b (a = b = -2 ^ 31 included), `ref_mulh_ss a b`
of both verification programs is `floor (a * b / 2 ^ 32) mod 2 ^ 32` for the exact signed
product `a * b`. -/
theorem ref_mulh_ss_correct (a b : Int) (ha : is_i32 a) (hb : is_i32 b) :
    (Radix4.ref_mulh_ss a b : Int) = Int.fdiv (a * b) (2 ^ 32) % 2 ^ 32 ∧
    (FastMultiplier.ref_mulh_ss a b : Int) = Int.fdiv (a * b) (2 ^ 32) % 2 ^ 32 := by
  have hp := ss_product_exact a b ha hb
  constructor
  · simp only [Radix4.ref_mulh_ss]
    rw [hp, to_u32_cast, asr32_eq_ediv, fdiv_two_pow]
  · simp only [FastMultiplier.ref_mulh_ss]
    rw [hp, lsr32_to_u64_cast, fdiv_two_pow]

/-- Instance of C2 at a = b = -2 ^ 31, where the product is 2 ^ 62. -/
theorem ref_mulh_ss_correct_witness :
    is_i32 (-2 ^ 31) ∧
    (Radix4.ref_mulh_ss (-2 ^ 31) (-2 ^ 31) : Int)
        = Int.fdiv (-2 ^ 31 * -2 ^ 31) (2 ^ 32) % 2 ^ 32 ∧
    (FastMultiplier.ref_mulh_ss (-2 ^ 31) (-2 ^ 31) : Int)
        = Int.fdiv (-2 ^ 31 * -2 ^ 31) (2 ^ 32) % 2 ^ 32 :=
  ⟨by unfold is_i32; norm_num,
    ref_mulh_ss_correct (-2 ^ 31) (-2 ^ 31) (by unfold is_i32; norm_num)
      (by unfold is_i32; norm_num)⟩

/-- C3. For every pair of `uint32_t` values, `ref_mul_lo a b` of both verification programs
is `(a * b) mod 2 ^ 32`, the low half of the full product; the function is total and has no
error value, wrap-around is silent. -/
theorem ref_mul_lo_correct (a b : Nat) (ha : is_u32 a) (hb : is_u32 b) :
    Radix4.ref_mul_lo a b = (a * b) % 2 ^ 32 ∧
    FastMultiplier.ref_mul_lo a b = (a * b) % 2 ^ 32 := by
  unfold is_u32 at ha hb
  have h : a * b < 2 ^ 64 := by nlinarith
  unfold Radix4.ref_mul_lo FastMultiplier.ref_mul_lo trunc_u32 mul_u64
  omega

/-- Instance of C3 at the largest operands, where the product wraps. -/
theorem ref_mul_lo_correct_witness :
    is_u32 (2 ^ 32 - 1) ∧
    Radix4.ref_mul_lo (2 ^ 32 - 1) (2 ^ 32 - 1) = ((2 ^ 32 - 1) * (2 ^ 32 - 1)) % 2 ^ 32 ∧
    FastMultiplier.ref_mul_lo (2 ^ 32 - 1) (2 ^ 32 - 1)
      = ((2 ^ 32 - 1) * (2 ^ 32 - 1)) % 2 ^ 32 :=
  ⟨by unfold is_u32; norm_num,
    ref_mul_lo_correct (2 ^ 32 - 1) (2 ^ 32 - 1) (by unfold is_u32; norm_num)
      (by unfold is_u32; norm_num)⟩

/-- C4. For every pair of `uint32_t` values, `ref_mulh_uu a b` of both verification programs
is `floor (a * b / 2 ^ 32)`, the high half of the zero-extended product, and that value
fits in 32 bits. -/
theorem ref_mulh_uu_correct (a b : Nat) (ha : is_u32 a) (hb : is_u32 b) :
    Radix4.ref_mulh_uu a b = (a * b) / 2 ^ 32 ∧
    FastMultiplier.ref_mulh_uu a b = (a * b) / 2 ^ 32 ∧
    (a * b) / 2 ^ 32 < 2 ^ 32 := by
  unfold is_u32 at ha hb
  have h : a * b < 2 ^ 64 := by nlinarith
  simp only [Radix4.ref_mulh_uu, FastMultiplier.ref_mulh_uu, trunc_u32, mul_u64,
    Nat.shiftRight_eq_div_pow]
  omega

/-- Instance of C4 at the largest operands. -/
theorem ref_mulh_uu_correct_witness :
    is_u32 (2 ^ 32 - 1) ∧
    Radix4.ref_mulh_uu (2 ^ 32 - 1) (2 ^ 32 - 1) = ((2 ^ 32 - 1) * (2 ^ 32 - 1)) / 2 ^ 32 ∧
    FastMultiplier.ref_mulh_uu (2 ^ 32 - 1) (2 ^ 32 - 1)
      = ((2 ^ 32 - 1) * (2 ^ 32 - 1)) / 2 ^ 32 ∧
    ((2 ^ 32 - 1) * (2 ^ 32 - 1)) / 2 ^ 32 < 2 ^ 32 :=
  ⟨by unfold is_u32; norm_num,
    ref_mulh_uu_correct (2 ^ 32 - 1) (2 ^ 32 - 1) (by unfold is_u32; norm_num)
      (by unfold is_u32; norm_num)⟩

/-! ## The status word -/

/-- C5. For every combination of the four hardware results `hw i` and the four reference
results `sw i`, and every test index i in 0, 1, 2, 3, the status word of both verification
programs has bit `7 - 2 i` set if and only if `hw i = sw i`, and bit `7 - 2 i - 1` set if and
only if they differ; so exactly one bit of each pair is set. -/
theorem status_word_bits (hw sw : Fin 4 → Nat) (i : Fin 4) :
    ((Radix4.status_word (hw 0) (sw 0) (hw 1) (sw 1) (hw 2) (sw 2) (hw 3) (sw 3)).testBit
        (7 - 2 * i.val) = true ↔ hw i = sw i) ∧
    ((Radix4.status_word (hw 0) (sw 0) (hw 1) (sw 1) (hw 2) (sw 2) (hw 3) (sw 3)).testBit
        (7 - 2 * i.val - 1) = true ↔ hw i ≠ sw i) ∧
    ((FastMultiplier.status_word (hw 0) (sw 0) (hw 1) (sw 1) (hw 2) (sw 2) (hw 3)
        (sw 3)).testBit (7 - 2 * i.val) = true ↔ hw i = sw i) ∧
    ((FastMultiplier.status_word (hw 0) (sw 0) (hw 1) (sw 1) (hw 2) (sw 2) (hw 3)
        (sw 3)).testBit (7 - 2 * i.val - 1) = true ↔ hw i ≠ sw i) := by
  by_cases h0 : hw 0 = sw 0 <;> by_cases h1 : hw 1 = sw 1 <;> by_cases h2 : hw 2 = sw 2 <;>
    by_cases h3 : hw 3 = sw 3 <;> fin_cases i <;>
    simp [Radix4.status_word, FastMultiplier.status_word, FastMultiplier.encode,
      FastMultiplier.pass_flag, or_u8, trunc_u8, h0, h1, h2, h3] <;> decide

/-- C6. The reference results for the fixed test vectors of the harness:
`ref_mul_lo (7, 3) = 0x00000015`, `ref_mulh_ss (-7, 3) = 0xFFFFFFFF`,
`ref_mulh_su (-7, 3) = 0xFFFFFFFF` and `ref_mulh_uu (7, 3) = 0x00000000`. -/
theorem ref_fixed_vectors :
    (Radix4.ref_mul_lo 7 3 = 0x00000015 ∧
     Radix4.ref_mulh_ss (-7) 3 = 0xFFFFFFFF ∧
     Radix4.ref_mulh_su (-7) 3 = 0xFFFFFFFF ∧
     Radix4.ref_mulh_uu 7 3 = 0x00000000) ∧
    (FastMultiplier.ref_mul_lo 7 3 = 0x00000015 ∧
     FastMultiplier.ref_mulh_ss (-7) 3 = 0xFFFFFFFF ∧
     FastMultiplier.ref_mulh_su (-7) 3 = 0xFFFFFFFF ∧
     FastMultiplier.ref_mulh_uu 7 3 = 0x00000000) := by
  refine ⟨⟨?_, ?_, ?_, ?_⟩, ⟨?_, ?_, ?_, ?_⟩⟩ <;> decide

/-! ## Order of events -/

/-- C7. In the stopwatch program with the peripheral present, for every iteration count n:
whenever a second write of 0xFF occurs in a run, exactly `16 * n` hardware multiplies
precede it and nothing follows it; when n is a `uint32_t` value the run does reach that
write, with outputs 0xFF, 0x00, 0xFF; and for n = 0 the events after the peripheral query
are write 0xFF, write 0x00, write 0xFF, with no multiply. -/
theorem StressTest.end_marker_after_workload (P : Platform) (n : Nat)
    (hP : P.gpio_available ≠ 0) :
    (∀ (fuel : Nat) (pre post : List Event),
        (StressTest.main P n fuel []).trace = pre ++ Event.write 0xFF :: post →
        Event.write 0xFF ∈ pre →
        pre.countP Event.isInsn = 16 * n ∧ post = []) ∧
    (n < 2 ^ 32 → ∀ fuel : Nat, 2500000 < fuel → n < fuel →
        (StressTest.main P n fuel []).outputs = [0xFF, 0x00, 0xFF] ∧
        (StressTest.main P n fuel []).insn_count = 16 * n) ∧
    (∀ fuel : Nat, 2500000 < fuel →
        (StressTest.main P 0 fuel []).trace
          = [Event.avail, Event.write 0xFF, Event.write 0x00, Event.write 0xFF] ∧
        (StressTest.main P 0 fuel []).insn_count = 0) := by
  refine ⟨?_, ?_, ?_⟩
  · intro fuel pre post hT hmem
    obtain ⟨m, hm, hshape⟩ := StressTest.main_shape P n hP fuel
    have hpre : 0 < pre.count (Event.write 0xFF) := List.count_pos_iff.mpr hmem
    have hc : (StressTest.main P n fuel []).trace.count (Event.write 0xFF)
        = pre.count (Event.write 0xFF) + 1 + post.count (Event.write 0xFF) := by
      rw [hT]
      simp [List.count_append, List.count_cons_self]
      omega
    have hm0 := insn_list_no_write m hm 0xFF
    rcases hshape with h | h | ⟨h, hlen⟩
    · rw [h] at hc
      simp [List.count_cons] at hc
      omega
    · rw [h] at hc
      simp [List.count_append, List.count_cons, hm0] at hc
      omega
    · have hpost : post.count (Event.write 0xFF) = 0 := by
        rw [h] at hc
        simp [List.count_append, List.count_cons, hm0] at hc
        omega
      rw [h] at hT
      have hX : ([Event.avail, Event.write 0xFF, Event.write 0x00] ++ m).countP Event.isInsn
          = 16 * n := by
        rw [List.countP_append, insn_list_countP m hm, hlen]
        simp [List.countP_cons, Event.isInsn]
      rcases List.append_eq_append_iff.mp hT with ⟨a, h1, h2⟩ | ⟨c, h1, h2⟩
      · have hl := congrArg List.length h2
        simp at hl
        have ha : a = [] := List.length_eq_zero.mp (by omega)
        have hp : post = [] := List.length_eq_zero.mp (by omega)
        subst ha
        rw [h1, List.append_nil]
        exact ⟨hX, hp⟩
      · cases c with
        | nil =>
          simp at h2
          rw [List.append_nil] at h1
          rw [← h1]
          exact ⟨hX, h2⟩
        | cons c cs =>
          simp at h2
          rw [h2.2] at hpost
          simp [List.count_append] at hpost
  · intro hn fuel hf hnf
    rw [StressTest.main_after_dwell P n hP fuel hf,
      for_u32.loop_run n _ _ _ (StressTest.block_run P _) hn fuel 0 _ _ (Nat.zero_le n)]
    obtain ⟨h1, h2⟩ := StressTest.workload_events P 0x9E3779B9 (n - 0) 0 (1, 0xDEADBEEF)
    have hlt : n - 0 < fuel := by omega
    simp only [if_pos hlt, Res.andThen_done, Res.outputs, Res.insn_count, Res.trace]
    constructor
    · rw [List.filterMap_append, List.filterMap_append, insn_list_outputs _ h2]
      rfl
    · rw [List.countP_append, List.countP_append, insn_list_countP _ h2, h1]
      simp [List.countP_cons, Event.isInsn]
  · intro fuel hf
    rw [StressTest.main_after_dwell P 0 hP fuel hf]
    cases fuel with
    | zero => omega
    | succ f => simp [for_u32.loop, Res.andThen_done, Res.trace, Res.insn_count, Event.isInsn]

/-- Instance of C7 for two workload iterations on a platform whose multiplier returns 0. -/
theorem StressTest.end_marker_after_workload_witness :
    (Platform.mk 1 (fun _ _ _ _ _ => 0)).gpio_available ≠ 0 ∧
    (StressTest.main (Platform.mk 1 (fun _ _ _ _ _ => 0)) 2 2500001 []).outputs
      = [0xFF, 0x00, 0xFF] ∧
    (StressTest.main (Platform.mk 1 (fun _ _ _ _ _ => 0)) 2 2500001 []).insn_count = 16 * 2 :=
  ⟨by decide,
    (StressTest.end_marker_after_workload (Platform.mk 1 (fun _ _ _ _ _ => 0)) 2
      (by decide)).2.1 (by norm_num) 2500001 (by norm_num) (by norm_num)⟩

/-- Counterexample to C8 as stated: on a platform with the peripheral present, the run of
`Example.c` hands four values to the output port, not one, and not every write has the
four hardware multiplies before it (the first write has none). -/
theorem Radix4.writes_before_evaluation :
    ¬ ((Radix4.main (Platform.mk 1 (fun _ _ _ _ _ => 0)) 300001 []).outputs.length = 1) ∧
    ¬ (∀ (pre post : List Event) (v : Nat),
         (Radix4.main (Platform.mk 1 (fun _ _ _ _ _ => 0)) 300001 []).trace
            = pre ++ Event.write v :: post →
         pre.countP Event.isInsn = 4) := by
  rw [Radix4.main_run _ (by decide) 300001]
  constructor
  · simp [Res.outputs, Res.trace, Event.written]
  · intro h
    have h1 := h [Event.avail] _ 0xAA rfl
    simp [Event.isInsn] at h1

/-- C8, amended. In both verification programs the three orientation markers 0xAA, 0x55,
0x00 are written first, then the four hardware multiplies are issued, and the status word,
folded from all four comparisons, is the single write that follows them and the last event
of the run; a run cut short in the first dwell has written the first marker only. -/
theorem verification_output_order (P : Platform) (fuel : Nat) :
    (P.gpio_available ≠ 0 → 300000 < fuel →
      Radix4.main P fuel [] =
        .timeout [Event.avail, Event.write 0xAA, Event.write 0x55, Event.write 0x00,
          Event.insn 0x33 0 1 7 3, Event.insn 0x33 1 1 (to_u32 (-7)) (to_u32 3),
          Event.insn 0x33 2 1 (to_u32 (-7)) 3, Event.insn 0x33 3 1 7 3,
          Event.write (Radix4.status_word
            (P.exec 0x33 0 1 7 3) (Radix4.ref_mul_lo 7 3)
            (P.exec 0x33 1 1 (to_u32 (-7)) (to_u32 3)) (Radix4.ref_mulh_ss (-7) 3)
            (P.exec 0x33 2 1 (to_u32 (-7)) 3) (Radix4.ref_mulh_su (-7) 3)
            (P.exec 0x33 3 1 7 3) (Radix4.ref_mulh_uu 7 3))]) ∧
    (P.gpio_available ≠ 0 → fuel ≤ 300000 →
      Radix4.main P fuel [] = .timeout [Event.avail, Event.write 0xAA]) ∧
    (300000 < fuel →
      FastMultiplier.main P fuel [] =
        .timeout [Event.write 0xAA, Event.write 0x55, Event.write 0x00,
          Event.insn 0x33 0 1 7 3, Event.insn 0x33 1 1 (to_u32 (-7)) (to_u32 3),
          Event.insn 0x33 2 1 (to_u32 (-7)) 3, Event.insn 0x33 3 1 7 3,
          Event.write (FastMultiplier.status_word
            (P.exec 0x33 0 1 7 3) (FastMultiplier.ref_mul_lo 7 3)
            (P.exec 0x33 1 1 (to_u32 (-7)) (to_u32 3)) (FastMultiplier.ref_mulh_ss (-7) 3)
            (P.exec 0x33 2 1 (to_u32 (-7)) 3) (FastMultiplier.ref_mulh_su (-7) 3)
            (P.exec 0x33 3 1 7 3) (FastMultiplier.ref_mulh_uu 7 3))]) ∧
    (fuel ≤ 300000 →
      FastMultiplier.main P fuel [] = .timeout [Event.write 0xAA]) := by
  refine ⟨?_, ?_, ?_, ?_⟩
  · intro hP hf
    rw [Radix4.main_run P hP fuel, if_pos hf]
  · intro hP hf
    rw [Radix4.main_run P hP fuel, if_neg (by omega)]
  · intro hf
    rw [FastMultiplier.fast_main_run P fuel, if_pos hf]
  · intro hf
    rw [FastMultiplier.fast_main_run P fuel, if_neg (by omega)]

/-- Instance of the amended C8: the complete run of `Example.c` on a platform with the
peripheral present whose multiplier returns 0; only the MULHU test passes. -/
theorem verification_output_order_witness :
    ((Platform.mk 1 (fun _ _ _ _ _ => 0)).gpio_available ≠ 0 ∧ 300000 < 300001) ∧
    Radix4.main (Platform.mk 1 (fun _ _ _ _ _ => 0)) 300001 [] =
      .timeout [Event.avail, Event.write 0xAA, Event.write 0x55, Event.write 0x00,
        Event.insn 0x33 0 1 7 3, Event.insn 0x33 1 1 0xFFFFFFF9 3,
        Event.insn 0x33 2 1 0xFFFFFFF9 3, Event.insn 0x33 3 1 7 3, Event.write 0x56] :=
  ⟨⟨by decide, by decide⟩,
    (verification_output_order (Platform.mk 1 (fun _ _ _ _ _ => 0)) 300001).1
      (by decide) (by decide)⟩

/-! ## The presence check -/

/-- C9. In `Example.c` and in `StressTestExample.c`, if `neorv32_gpio_available()` returns 0
the run consists of that query alone, whatever the bound on the run: no output write, no
hardware multiply, and the program has not left its halt loop. -/
theorem halt_when_absent (P : Platform) (n fuel : Nat) (hP : P.gpio_available = 0) :
    (Radix4.main P fuel [] = .timeout [Event.avail] ∧
     (Radix4.main P fuel []).outputs = [] ∧
     (Radix4.main P fuel []).insn_count = 0 ∧
     (Radix4.main P fuel []).returned = false) ∧
    (StressTest.main P n fuel [] = .timeout [Event.avail] ∧
     (StressTest.main P n fuel []).outputs = [] ∧
     (StressTest.main P n fuel []).insn_count = 0 ∧
     (StressTest.main P n fuel []).returned = false) := by
  rw [Radix4.main_absent P hP fuel, StressTest.stopwatch_absent P n hP fuel]
  simp [Res.outputs, Res.insn_count, Res.returned, Res.trace, Event.written, Event.isInsn]

/-- Instance of C9 on a platform without the peripheral, with the default `N_BLOCKS`. -/
theorem halt_when_absent_witness :
    (Platform.mk 0 (fun _ _ _ _ _ => 0)).gpio_available = 0 ∧
    (Radix4.main (Platform.mk 0 (fun _ _ _ _ _ => 0)) 1000 []).outputs = [] ∧
    (StressTest.main (Platform.mk 0 (fun _ _ _ _ _ => 0)) StressTest.N_BLOCKS 1000 []).outputs
      = [] :=
  ⟨rfl,
    (halt_when_absent (Platform.mk 0 (fun _ _ _ _ _ => 0)) StressTest.N_BLOCKS 1000 rfl).1.2.1,
    (halt_when_absent (Platform.mk 0 (fun _ _ _ _ _ => 0)) StressTest.N_BLOCKS 1000 rfl).2.2.1⟩

/-- Counterexample to C10 as stated: on a platform without the output peripheral the run of
`multiplication example.c` holds no presence query, and it does write to the output port. -/
theorem FastMultiplier.writes_when_absent :
    ¬ ((FastMultiplier.main (Platform.mk 0 (fun _ _ _ _ _ => 0)) 300001 []).trace.count
          Event.avail = 1) ∧
    ¬ ((FastMultiplier.main (Platform.mk 0 (fun _ _ _ _ _ => 0)) 300001 []).outputs = []) := by
  rw [FastMultiplier.fast_main_run _ 300001]
  constructor
  · simp [Res.trace]
  · simp [Res.outputs, Res.trace, Event.written]

/-- C10, amended. The verification program of `multiplication example.c` never consults the
presence check: no run of it holds a query, its runs are the same whatever the query would
answer, and every complete run writes the three orientation markers and the status word. -/
theorem FastMultiplier.no_presence_check (P : Platform) (fuel : Nat) :
    (FastMultiplier.main P fuel []).trace.count Event.avail = 0 ∧
    (∀ g : Int, FastMultiplier.main (Platform.mk g P.exec) fuel []
        = FastMultiplier.main P fuel []) ∧
    (300000 < fuel →
      (FastMultiplier.main P fuel []).outputs =
        [0xAA, 0x55, 0x00,
          FastMultiplier.status_word
            (P.exec 0x33 0 1 7 3) (FastMultiplier.ref_mul_lo 7 3)
            (P.exec 0x33 1 1 (to_u32 (-7)) (to_u32 3)) (FastMultiplier.ref_mulh_ss (-7) 3)
            (P.exec 0x33 2 1 (to_u32 (-7)) 3) (FastMultiplier.ref_mulh_su (-7) 3)
            (P.exec 0x33 3 1 7 3) (FastMultiplier.ref_mulh_uu 7 3)]) := by
  refine ⟨?_, ?_, ?_⟩
  · rw [FastMultiplier.fast_main_run P fuel]
    split <;> simp [Res.trace]
  · intro g
    rw [FastMultiplier.fast_main_run P fuel, FastMultiplier.fast_main_run _ fuel]
  · intro hf
    rw [FastMultiplier.fast_main_run P fuel, if_pos hf]
    simp [Res.outputs, Res.trace, Event.written]

/-- Instance of the amended C10 on a platform without the peripheral whose multiplier
returns 0: the outputs of the complete run. -/
theorem FastMultiplier.no_presence_check_witness :
    300000 < 300001 ∧
    (FastMultiplier.main (Platform.mk 0 (fun _ _ _ _ _ => 0)) 300001 []).outputs
      = [0xAA, 0x55, 0x00, 0x56] :=
  ⟨by decide,
    (FastMultiplier.no_presence_check (Platform.mk 0 (fun _ _ _ _ _ => 0)) 300001).2.2
      (by decide)⟩

/-! ## Further facts about words, blocks and reference models -/

/-- Fields of an assembled M-group word do not depend on the register numbers. -/
theorem insn_r_word_fields (funct3 rd rs1 rs2 : Nat) (hf : funct3 < 8) (hd : rd < 32)
    (h1 : rs1 < 32) (h2 : rs2 < 32) :
    word_fields (insn_r_word 0x33 funct3 1 rd rs1 rs2) = (0x33, funct3, 1) := by
  unfold word_fields word_opcode word_funct3 word_funct7 insn_r_word
  refine Prod.ext ?_ (Prod.ext ?_ ?_) <;> simp only <;> omega

/-- The one instruction word of a run of `insn_r`. -/
theorem insn_r_words (P : Platform) (o f3 f7 a b fuel rd rs1 rs2 : Nat) :
    (insn_r P o f3 f7 a b fuel []).words rd rs1 rs2 = [insn_r_word o f3 f7 rd rs1 rs2] := by
  simp [insn_r_run, Res.words, Res.trace, Event.word]

/-- Reducing a factor modulo `2 ^ 32` does not change the low 32 bits of a product. -/
theorem mod_mul_low (x y : Nat) : (x % 2 ^ 32 * y) % 2 ^ 32 = (x * y) % 2 ^ 32 := by
  rw [Nat.mul_mod, Nat.mod_mod, ← Nat.mul_mod]

/-- One more low-32 multiply by `y` in a chain of multiplies by `y`. -/
theorem chain_step (x y k : Nat) :
    (x * y ^ k % 2 ^ 32) * y % 2 ^ 32 = x * y ^ (k + 1) % 2 ^ 32 := by
  rw [mod_mul_low, pow_succ y k, mul_assoc]

/-- One workload block when MUL is the low-32 product: result and events. -/
theorem StressTest.block_closed (P : Platform)
    (hP : ∀ x y, P.exec 0x33 0 1 x y = (x * y) % 2 ^ 32) (b i s a fuel : Nat)
    (hs : s < 2 ^ 32) (tr : List Event) :
    StressTest.block P b i (s, a) fuel tr =
      .done ((s * b ^ 8 * a ^ 8) % 2 ^ 32, a ^^^ (i ||| 1))
        (tr ++ (List.range 8).map (fun k => Event.insn 0x33 0 1 ((s * b ^ k) % 2 ^ 32) b)
            ++ (List.range 8).map
                (fun k => Event.insn 0x33 0 1 ((s * b ^ 8 * a ^ k) % 2 ^ 32) a)) := by
  have hr : List.range 8 = [0, 1, 2, 3, 4, 5, 6, 7] := by decide
  have hb1 : s * b % 2 ^ 32 = s * b ^ 1 % 2 ^ 32 := by rw [pow_one]
  have ha1 : s * b ^ 8 % 2 ^ 32 * a % 2 ^ 32 = s * b ^ 8 * a ^ 1 % 2 ^ 32 := by
    rw [mod_mul_low, pow_one]
  simp only [StressTest.block, StressTest.mul_u32, run_bind, run_pure, insn_r_run,
    Res.andThen_done, hP]
  rw [hb1]
  simp only [chain_step s b]
  rw [ha1]
  simp only [chain_step (s * b ^ 8) a]
  simp only [hr, List.map_cons, List.map_nil, pow_zero, mul_one, Nat.mod_eq_of_lt hs,
    List.append_assoc, List.cons_append, List.nil_append, Nat.reduceAdd]

/-- Effect of one workload block on `s` and `a` when MUL is the low-32 product. -/
theorem StressTest.block_result_closed (P : Platform)
    (hP : ∀ x y, P.exec 0x33 0 1 x y = (x * y) % 2 ^ 32) (b : Nat) :
    StressTest.block_result P b
      = fun i st => ((st.1 * b ^ 8 * st.2 ^ 8) % 2 ^ 32, st.2 ^^^ (i ||| 1)) := by
  funext i st
  have hb1 : st.1 * b % 2 ^ 32 = st.1 * b ^ 1 % 2 ^ 32 := by rw [pow_one]
  have ha1 : st.1 * b ^ 8 % 2 ^ 32 * st.2 % 2 ^ 32 = st.1 * b ^ 8 * st.2 ^ 1 % 2 ^ 32 := by
    rw [mod_mul_low, pow_one]
  simp only [StressTest.block_result, StressTest.block, StressTest.mul_u32, run_bind, run_pure,
    insn_r_run, Res.andThen_done, hP]
  rw [hb1]
  simp only [chain_step st.1 b]
  rw [ha1]
  simp only [chain_step (st.1 * b ^ 8) st.2, Nat.reduceAdd]

/-- The last of `k + 1` iterations runs at the counter value `i + k`. -/
theorem iter_state_succ {σ : Type} (step : Nat → σ → σ) (k : Nat) :
    ∀ (i : Nat) (st : σ),
      iter_state step (k + 1) i st = step (i + k) (iter_state step k i st) := by
  induction k with
  | zero =>
    intro i st
    rfl
  | succ k ih =>
    intro i st
    have h := ih (i + 1) (step i st)
    have e : i + 1 + k = i + (k + 1) := by omega
    rw [e] at h
    exact h

/-- Iterations compose. -/
theorem iter_state_add {σ : Type} (step : Nat → σ → σ) (j k : Nat) :
    ∀ (i : Nat) (st : σ),
      iter_state step (j + k) i st = iter_state step k (i + j) (iter_state step j i st) := by
  induction k with
  | zero =>
    intro i st
    rfl
  | succ k ih =>
    intro i st
    rw [← Nat.add_assoc, iter_state_succ, iter_state_succ, ih, Nat.add_assoc]

/-- Once the accumulator is 0 it stays 0. -/
theorem workload_zero_stays (b k : Nat) :
    ∀ (i a : Nat),
      (iter_state (fun i (st : Nat × Nat) =>
          ((st.1 * b ^ 8 * st.2 ^ 8) % 2 ^ 32, st.2 ^^^ (i ||| 1))) k i (0, a)).1 = 0 := by
  induction k with
  | zero =>
    intro i a
    rfl
  | succ k ih =>
    intro i a
    simp only [iter_state, Nat.zero_mul, Nat.zero_mod]
    exact ih _ _

/-- Parity of `a` after n workload blocks. -/
theorem workload_parity (b n : Nat) :
    (iter_state (fun i (st : Nat × Nat) =>
        ((st.1 * b ^ 8 * st.2 ^ 8) % 2 ^ 32, st.2 ^^^ (i ||| 1))) n 0 (1, 0xDEADBEEF)).2 % 2
      = (n + 1) % 2 := by
  induction n with
  | zero =>
    show (0xDEADBEEF : Nat) % 2 = (0 + 1) % 2
    decide
  | succ n ih =>
    rw [iter_state_succ]
    simp only [Nat.zero_add]
    rw [Nat.xor_mod_two_eq]
    have h1 : (n ||| 1) % 2 = 1 := Nat.or_mod_two_eq_one.mpr (Or.inr rfl)
    omega

/-- The two ways of taking the high half agree on every `int64_t` value. -/
theorem CInt.asr_eq_lsr_high (p : Int) :
    to_u32 (p >>> (32 : Nat)) = trunc_u32 (to_u64 p >>> (32 : Nat)) := by
  apply Int.ofNat_inj.mp
  rw [lsr32_to_u64_cast, to_u32_cast, asr32_eq_ediv]

/-- Both programs have the same signed by signed reference. -/
theorem ref_models_agree_ss (a b : Int) :
    FastMultiplier.ref_mulh_ss a b = Radix4.ref_mulh_ss a b := by
  simp only [FastMultiplier.ref_mulh_ss, Radix4.ref_mulh_ss, asr_eq_lsr_high]

/-- Both programs have the same signed by unsigned reference. -/
theorem ref_models_agree_su (a : Int) (b : Nat) :
    FastMultiplier.ref_mulh_su a b = Radix4.ref_mulh_su a b := by
  simp only [FastMultiplier.ref_mulh_su, Radix4.ref_mulh_su, asr_eq_lsr_high]

/-- Both programs fold the same outcomes into the same status word. -/
theorem status_words_agree (hw0 sw0 hw1 sw1 hw2 sw2 hw3 sw3 : Nat) :
    FastMultiplier.status_word hw0 sw0 hw1 sw1 hw2 sw2 hw3 sw3
      = Radix4.status_word hw0 sw0 hw1 sw1 hw2 sw2 hw3 sw3 := by
  by_cases h0 : hw0 = sw0 <;> by_cases h1 : hw1 = sw1 <;> by_cases h2 : hw2 = sw2 <;>
    by_cases h3 : hw3 = sw3 <;>
    simp [Radix4.status_word, FastMultiplier.status_word, FastMultiplier.encode,
      FastMultiplier.pass_flag, h0, h1, h2, h3]

/-- The pass bit of test i records the outcome of test i. -/
theorem status_word_pass_bit (hw sw : Fin 4 → Nat) (i : Fin 4) :
    (Radix4.status_word (hw 0) (sw 0) (hw 1) (sw 1) (hw 2) (sw 2) (hw 3) (sw 3)).testBit
        (7 - 2 * i.val) = true ↔ hw i = sw i := by
  by_cases h0 : hw 0 = sw 0 <;> by_cases h1 : hw 1 = sw 1 <;> by_cases h2 : hw 2 = sw 2 <;>
    by_cases h3 : hw 3 = sw 3 <;> fin_cases i <;>
    simp [Radix4.status_word, or_u8, trunc_u8, h0, h1, h2, h3] <;> decide

/-- Equal outcomes give equal status words. -/
theorem status_word_of_outcomes (hw sw hw2 sw2 : Fin 4 → Nat)
    (h : ∀ i, hw i = sw i ↔ hw2 i = sw2 i) :
    Radix4.status_word (hw 0) (sw 0) (hw 1) (sw 1) (hw 2) (sw 2) (hw 3) (sw 3)
      = Radix4.status_word (hw2 0) (sw2 0) (hw2 1) (sw2 1) (hw2 2) (sw2 2) (hw2 3) (sw2 3) := by
  simp only [Radix4.status_word, h 0, h 1, h 2, h 3]

/-- The sixteen status words. -/
theorem status_word_range :
    {w : Nat | ∃ hw sw : Fin 4 → Nat,
        w = Radix4.status_word (hw 0) (sw 0) (hw 1) (sw 1) (hw 2) (sw 2) (hw 3) (sw 3)}
      = ((({0x55, 0x56, 0x59, 0x5A, 0x65, 0x66, 0x69, 0x6A, 0x95, 0x96, 0x99, 0x9A, 0xA5, 0xA6,
            0xA9, 0xAA} : Finset Nat)) : Set Nat) := by
  ext w
  simp only [Set.mem_setOf_eq, Finset.coe_insert, Finset.coe_singleton, Set.mem_insert_iff,
    Set.mem_singleton_iff]
  constructor
  · rintro ⟨hw, sw, rfl⟩
    by_cases h0 : hw 0 = sw 0 <;> by_cases h1 : hw 1 = sw 1 <;> by_cases h2 : hw 2 = sw 2 <;>
      by_cases h3 : hw 3 = sw 3 <;>
      simp [Radix4.status_word, or_u8, trunc_u8, h0, h1, h2, h3]
  · intro h
    refine ⟨fun i => if w.testBit (7 - 2 * i.val) then 0 else 1, fun _ => 0, ?_⟩
    rcases h with h | h | h | h | h | h | h | h | h | h | h | h | h | h | h | h <;>
      subst h <;> decide

/-- The reference platform has a correct multiplier. -/
theorem RV32M.reference_platform_correct : RV32M.correct RV32M.reference_platform := by
  intro rs1 rs2 _ _
  exact ⟨rfl, rfl, rfl, rfl⟩

/-- Architectural results at the fixed test vectors. -/
theorem RV32M.fixed_vectors :
    RV32M.mul 7 3 = Radix4.ref_mul_lo 7 3 ∧
    RV32M.mulh (to_u32 (-7)) (to_u32 3) = Radix4.ref_mulh_ss (-7) 3 ∧
    RV32M.mulhsu (to_u32 (-7)) 3 = Radix4.ref_mulh_su (-7) 3 ∧
    RV32M.mulhu 7 3 = Radix4.ref_mulh_uu 7 3 := by
  refine ⟨?_, ?_, ?_, ?_⟩ <;> decide

/-! ## Popcount of the status word -/

/-- C11. For every combination of the four pass/fail outcomes the status word of both
verification programs has popcount exactly 4, is a `uint8_t` value, and each of its four bit
pairs holds exactly one set bit; the same holds for the encoder of `multiplication example.c`
on arbitrary pass flags, and for the status word that each complete run of `main` writes. -/
theorem status_word_popcount (hw sw : Fin 4 → Nat) (t0 t1 t2 t3 : Nat) (P : Platform)
    (fuel : Nat) :
    (popcount 8 (Radix4.status_word (hw 0) (sw 0) (hw 1) (sw 1) (hw 2) (sw 2) (hw 3) (sw 3)) = 4 ∧
     Radix4.status_word (hw 0) (sw 0) (hw 1) (sw 1) (hw 2) (sw 2) (hw 3) (sw 3) < 2 ^ 8 ∧
     ∀ i : Fin 4,
       ((Radix4.status_word (hw 0) (sw 0) (hw 1) (sw 1) (hw 2) (sw 2) (hw 3) (sw 3)).testBit
          (7 - 2 * i.val)).toNat +
       ((Radix4.status_word (hw 0) (sw 0) (hw 1) (sw 1) (hw 2) (sw 2) (hw 3) (sw 3)).testBit
          (7 - 2 * i.val - 1)).toNat = 1) ∧
    (popcount 8 (FastMultiplier.status_word (hw 0) (sw 0) (hw 1) (sw 1) (hw 2) (sw 2) (hw 3)
        (sw 3)) = 4 ∧
     FastMultiplier.status_word (hw 0) (sw 0) (hw 1) (sw 1) (hw 2) (sw 2) (hw 3) (sw 3) < 2 ^ 8 ∧
     ∀ i : Fin 4,
       ((FastMultiplier.status_word (hw 0) (sw 0) (hw 1) (sw 1) (hw 2) (sw 2) (hw 3)
          (sw 3)).testBit (7 - 2 * i.val)).toNat +
       ((FastMultiplier.status_word (hw 0) (sw 0) (hw 1) (sw 1) (hw 2) (sw 2) (hw 3)
          (sw 3)).testBit (7 - 2 * i.val - 1)).toNat = 1) ∧
    (popcount 8 (FastMultiplier.encode t0 t1 t2 t3) = 4 ∧
     FastMultiplier.encode t0 t1 t2 t3 < 2 ^ 8 ∧
     ∀ i : Fin 4,
       ((FastMultiplier.encode t0 t1 t2 t3).testBit (7 - 2 * i.val)).toNat +
       ((FastMultiplier.encode t0 t1 t2 t3).testBit (7 - 2 * i.val - 1)).toNat = 1) ∧
    (300000 < fuel →
      (∃ w, (FastMultiplier.main P fuel []).outputs = [0xAA, 0x55, 0x00, w] ∧
        popcount 8 w = 4) ∧
      (P.gpio_available ≠ 0 →
        ∃ w, (Radix4.main P fuel []).outputs = [0xAA, 0x55, 0x00, w] ∧ popcount 8 w = 4)) := by
  have hR : ∀ hw sw : Fin 4 → Nat,
      popcount 8 (Radix4.status_word (hw 0) (sw 0) (hw 1) (sw 1) (hw 2) (sw 2) (hw 3) (sw 3))
        = 4 ∧
      Radix4.status_word (hw 0) (sw 0) (hw 1) (sw 1) (hw 2) (sw 2) (hw 3) (sw 3) < 2 ^ 8 ∧
      ∀ i : Fin 4,
        ((Radix4.status_word (hw 0) (sw 0) (hw 1) (sw 1) (hw 2) (sw 2) (hw 3) (sw 3)).testBit
            (7 - 2 * i.val)).toNat +
        ((Radix4.status_word (hw 0) (sw 0) (hw 1) (sw 1) (hw 2) (sw 2) (hw 3) (sw 3)).testBit
            (7 - 2 * i.val - 1)).toNat = 1 := by
    intro hw sw
    by_cases h0 : hw 0 = sw 0 <;> by_cases h1 : hw 1 = sw 1 <;> by_cases h2 : hw 2 = sw 2 <;>
      by_cases h3 : hw 3 = sw 3 <;>
      simp only [Radix4.status_word, or_u8, trunc_u8, h0, h1, h2, h3, if_true, if_false] <;>
      decide
  refine ⟨hR hw sw, ?_, ?_, ?_⟩
  · simp only [status_words_agree]
    exact hR hw sw
  · by_cases h0 : t0 = 0 <;> by_cases h1 : t1 = 0 <;> by_cases h2 : t2 = 0 <;>
      by_cases h3 : t3 = 0 <;>
      simp only [FastMultiplier.encode, or_u8, trunc_u8, h0, h1, h2, h3, ne_eq, not_true,
        not_false_eq_true, if_true, if_false] <;>
      decide
  · intro hf
    have hpop : ∀ a0 b0 a1 b1 a2 b2 a3 b3 : Nat,
        popcount 8 (Radix4.status_word a0 b0 a1 b1 a2 b2 a3 b3) = 4 :=
      fun a0 b0 a1 b1 a2 b2 a3 b3 => (hR ![a0, a1, a2, a3] ![b0, b1, b2, b3]).1
    constructor
    · rw [FastMultiplier.fast_main_run P fuel, if_pos hf]
      refine ⟨_, rfl, ?_⟩
      rw [status_words_agree]
      exact hpop _ _ _ _ _ _ _ _
    · intro hP
      rw [Radix4.main_run P hP fuel, if_pos hf]
      exact ⟨_, rfl, hpop _ _ _ _ _ _ _ _⟩

/-- Instance of C11: the complete run of `Example.c` on the reference platform writes a status
word of popcount 4. -/
theorem status_word_popcount_witness :
    (300000 < 300001 ∧ RV32M.reference_platform.gpio_available ≠ 0) ∧
    ∃ w, (Radix4.main RV32M.reference_platform 300001 []).outputs = [0xAA, 0x55, 0x00, w] ∧
      popcount 8 w = 4 :=
  ⟨⟨by decide, by decide⟩,
    ((status_word_popcount (fun _ => 0) (fun _ => 0) 0 0 0 0 RV32M.reference_platform
      300001).2.2.2 (by decide)).2 (by decide)⟩

/-! ## Instruction encoding -/

/-- C12. For every platform, every operand value and every assignment of registers, the one
instruction word issued by each invoker has opcode field 0x33 and funct7 field 1, and funct3
field 0, 1, 2, 3 for `hw_mul`, `hw_mulh`, `hw_mulhsu`, `hw_mulhu` (0 for `mul_u32`); the words
of the four invokers are pairwise distinct. -/
theorem invoker_encoding (P : Platform) (a b : Nat) (sa sb : Int) (fuel : Nat)
    (rd rs1 rs2 : Nat) (hd : rd < 32) (h1 : rs1 < 32) (h2 : rs2 < 32) :
    (((Radix4.hw_mul P a b fuel []).words rd rs1 rs2).map word_fields = [(0x33, 0, 1)] ∧
     ((Radix4.hw_mulh P sa sb fuel []).words rd rs1 rs2).map word_fields = [(0x33, 1, 1)] ∧
     ((Radix4.hw_mulhsu P sa b fuel []).words rd rs1 rs2).map word_fields = [(0x33, 2, 1)] ∧
     ((Radix4.hw_mulhu P a b fuel []).words rd rs1 rs2).map word_fields = [(0x33, 3, 1)]) ∧
    (((FastMultiplier.hw_mul P a b fuel []).words rd rs1 rs2).map word_fields
        = [(0x33, 0, 1)] ∧
     ((FastMultiplier.hw_mulh P sa sb fuel []).words rd rs1 rs2).map word_fields
        = [(0x33, 1, 1)] ∧
     ((FastMultiplier.hw_mulhsu P sa b fuel []).words rd rs1 rs2).map word_fields
        = [(0x33, 2, 1)] ∧
     ((FastMultiplier.hw_mulhu P a b fuel []).words rd rs1 rs2).map word_fields
        = [(0x33, 3, 1)]) ∧
    ((StressTest.mul_u32 P a b fuel []).words rd rs1 rs2).map word_fields = [(0x33, 0, 1)] ∧
    ((Radix4.hw_mul P a b fuel []).words rd rs1 rs2 ++
      (Radix4.hw_mulh P sa sb fuel []).words rd rs1 rs2 ++
      (Radix4.hw_mulhsu P sa b fuel []).words rd rs1 rs2 ++
      (Radix4.hw_mulhu P a b fuel []).words rd rs1 rs2).Nodup := by
  have f0 := insn_r_word_fields 0 rd rs1 rs2 (by norm_num) hd h1 h2
  have f1 := insn_r_word_fields 1 rd rs1 rs2 (by norm_num) hd h1 h2
  have f2 := insn_r_word_fields 2 rd rs1 rs2 (by norm_num) hd h1 h2
  have f3 := insn_r_word_fields 3 rd rs1 rs2 (by norm_num) hd h1 h2
  simp only [Radix4.hw_mul, Radix4.hw_mulh, Radix4.hw_mulhsu, Radix4.hw_mulhu,
    FastMultiplier.hw_mul, FastMultiplier.hw_mulh, FastMultiplier.hw_mulhsu,
    FastMultiplier.hw_mulhu, StressTest.mul_u32, insn_r_words, List.map_cons, List.map_nil,
    f0, f1, f2, f3, true_and, and_self]
  simp only [insn_r_word]
  simp

/-- Instance of C12 for the operands of the harness and the registers a0, a1, a2: the word
of `hw_mulhsu` is the word of `mulhsu a0, a1, a2`. -/
theorem invoker_encoding_witness :
    ((10 : Nat) < 32 ∧ (11 : Nat) < 32 ∧ (12 : Nat) < 32) ∧
    ((Radix4.hw_mulhsu RV32M.reference_platform (-7) 3 0 []).words 10 11 12).map word_fields
      = [(0x33, 2, 1)] :=
  ⟨⟨by decide, by decide, by decide⟩,
    (invoker_encoding RV32M.reference_platform 7 3 (-7) 3 0 10 11 12 (by decide) (by decide)
      (by decide)).1.2.2.1⟩

/-! ## The workload -/

/-- C13. When the hardware MUL is the low-32 product, one pass through the workload block with
counter value i turns the loop variables (s, a) into
(`s * b ^ 8 * a ^ 8 mod 2 ^ 32`, `a XOR (i OR 1)`) and issues exactly sixteen chained
multiplies of the accumulator, eight by b and then eight by a; the block has no assignment
to b. -/
theorem StressTest.workload_iteration (P : Platform)
    (hP : ∀ x y, P.exec 0x33 0 1 x y = (x * y) % 2 ^ 32) (b i s a fuel : Nat)
    (hs : s < 2 ^ 32) (tr : List Event) :
    StressTest.block P b i (s, a) fuel tr =
      Res.done ((s * b ^ 8 * a ^ 8) % 2 ^ 32, a ^^^ (i ||| 1))
        (tr ++ (List.range 8).map (fun k => Event.insn 0x33 0 1 ((s * b ^ k) % 2 ^ 32) b)
            ++ (List.range 8).map
                (fun k => Event.insn 0x33 0 1 ((s * b ^ 8 * a ^ k) % 2 ^ 32) a)) :=
  StressTest.block_closed P hP b i s a fuel hs tr

/-- Instance of C13: the first workload block of the stopwatch program on the reference
platform. -/
theorem StressTest.workload_iteration_witness :
    ((∀ x y, RV32M.reference_platform.exec 0x33 0 1 x y = (x * y) % 2 ^ 32) ∧
      (1 : Nat) < 2 ^ 32) ∧
    StressTest.block RV32M.reference_platform 0x9E3779B9 0 (1, 0xDEADBEEF) 0 [] =
      Res.done ((1 * 0x9E3779B9 ^ 8 * 0xDEADBEEF ^ 8) % 2 ^ 32, 0xDEADBEEF ^^^ (0 ||| 1))
        ([] ++ (List.range 8).map
              (fun k => Event.insn 0x33 0 1 ((1 * 0x9E3779B9 ^ k) % 2 ^ 32) 0x9E3779B9)
            ++ (List.range 8).map
                (fun k => Event.insn 0x33 0 1 ((1 * 0x9E3779B9 ^ 8 * 0xDEADBEEF ^ k) % 2 ^ 32)
                  0xDEADBEEF)) :=
  ⟨⟨fun _ _ => rfl, by norm_num⟩,
    StressTest.workload_iteration RV32M.reference_platform (fun _ _ => rfl) 0x9E3779B9 0 1
      0xDEADBEEF 0 (by norm_num) []⟩

/-- C14. When the hardware MUL is the low-32 product, the accumulator s of the stopwatch
program after n workload blocks, from s = 1, a = 0xDEADBEEF, b = 0x9E3779B9, is 0 if and only
if n is at least 6; after n blocks the constant a is even exactly when n is odd; from the
seventh block on every multiply has the operand 0; and for a `uint32_t` count n the workload
loop of `main` returns these values. -/
theorem StressTest.accumulator_collapse (P : Platform)
    (hP : ∀ x y, P.exec 0x33 0 1 x y = (x * y) % 2 ^ 32) (n : Nat) :
    ((iter_state (StressTest.block_result P 0x9E3779B9) n 0 (1, 0xDEADBEEF)).1 = 0 ↔ 6 ≤ n) ∧
    ((iter_state (StressTest.block_result P 0x9E3779B9) n 0 (1, 0xDEADBEEF)).2 % 2
        = (n + 1) % 2) ∧
    (6 ≤ n → ∀ e ∈ StressTest.block_events P 0x9E3779B9 n
        (iter_state (StressTest.block_result P 0x9E3779B9) n 0 (1, 0xDEADBEEF)),
      ∃ m, e = Event.insn 0x33 0 1 0 m) ∧
    (n < 2 ^ 32 → ∀ (fuel : Nat) (tr : List Event), n < fuel →
      for_u32 n (StressTest.block P 0x9E3779B9) (1, 0xDEADBEEF) fuel tr
        = .done (iter_state (StressTest.block_result P 0x9E3779B9) n 0 (1, 0xDEADBEEF))
            (tr ++ iter_events (StressTest.block_result P 0x9E3779B9)
              (StressTest.block_events P 0x9E3779B9) n 0 (1, 0xDEADBEEF))) := by
  have hz : ∀ n, 6 ≤ n →
      (iter_state (StressTest.block_result P 0x9E3779B9) n 0 (1, 0xDEADBEEF)).1 = 0 := by
    intro n h6
    obtain ⟨k, rfl⟩ := Nat.exists_eq_add_of_le h6
    rw [StressTest.block_result_closed P hP, iter_state_add]
    have h : iter_state (fun i (st : Nat × Nat) =>
        ((st.1 * 0x9E3779B9 ^ 8 * st.2 ^ 8) % 2 ^ 32, st.2 ^^^ (i ||| 1))) 6 0 (1, 0xDEADBEEF)
        = (0, 0xDEADBEEF) := by decide
    rw [h]
    exact workload_zero_stays _ k _ _
  refine ⟨⟨?_, hz n⟩, ?_, ?_, ?_⟩
  · intro h0
    by_contra hlt
    have hn : n < 6 := by omega
    rw [StressTest.block_result_closed P hP] at h0
    interval_cases n <;> revert h0 <;> decide
  · rw [StressTest.block_result_closed P hP]
    exact workload_parity _ n
  · intro h6 e he
    have h0 := hz n h6
    generalize iter_state (StressTest.block_result P 0x9E3779B9) n 0 (1, 0xDEADBEEF) = st at h0 he
    obtain ⟨s, a⟩ := st
    simp only at h0
    subst h0
    simp only [StressTest.block_events,
      StressTest.block_closed P hP _ n 0 a 0 (by norm_num) [], Res.trace] at he
    simp at he
    obtain ⟨k, _, rfl⟩ | ⟨k, _, rfl⟩ := he
    · exact ⟨_, rfl⟩
    · exact ⟨_, rfl⟩
  · intro hn fuel tr hf
    unfold for_u32
    rw [for_u32.loop_run n _ _ _ (StressTest.block_run P _) hn fuel 0 _ tr (Nat.zero_le n),
      if_pos (by omega)]
    rfl

/-- Instance of C14 on the reference platform: the accumulator is 0 after six blocks and
not after five. -/
theorem StressTest.accumulator_collapse_witness :
    (∀ x y, RV32M.reference_platform.exec 0x33 0 1 x y = (x * y) % 2 ^ 32) ∧
    (iter_state (StressTest.block_result RV32M.reference_platform 0x9E3779B9) 6 0
      (1, 0xDEADBEEF)).1 = 0 ∧
    ¬ (iter_state (StressTest.block_result RV32M.reference_platform 0x9E3779B9) 5 0
      (1, 0xDEADBEEF)).1 = 0 :=
  ⟨fun _ _ => rfl,
    (StressTest.accumulator_collapse RV32M.reference_platform (fun _ _ => rfl) 6).1.mpr
      (by decide),
    fun h => absurd
      ((StressTest.accumulator_collapse RV32M.reference_platform (fun _ _ => rfl) 5).1.mp h)
      (by decide)⟩

/-! ## All tests pass, all tests fail -/

/-- C15. In every complete run of both verification programs: if the multiplier delivers the
architectural result of MUL, MULH, MULHSU and MULHU, the status word written is 0xAA; if all
four hardware results differ from their references, it is 0x55. -/
theorem status_all_pass_all_fail (P : Platform) (fuel : Nat) (hf : 300000 < fuel) :
    (RV32M.correct P →
      (FastMultiplier.main P fuel []).outputs = [0xAA, 0x55, 0x00, 0xAA] ∧
      (P.gpio_available ≠ 0 → (Radix4.main P fuel []).outputs = [0xAA, 0x55, 0x00, 0xAA])) ∧
    (P.exec 0x33 0 1 7 3 ≠ Radix4.ref_mul_lo 7 3 →
      P.exec 0x33 1 1 (to_u32 (-7)) (to_u32 3) ≠ Radix4.ref_mulh_ss (-7) 3 →
      P.exec 0x33 2 1 (to_u32 (-7)) 3 ≠ Radix4.ref_mulh_su (-7) 3 →
      P.exec 0x33 3 1 7 3 ≠ Radix4.ref_mulh_uu 7 3 →
      (FastMultiplier.main P fuel []).outputs = [0xAA, 0x55, 0x00, 0x55] ∧
      (P.gpio_available ≠ 0 → (Radix4.main P fuel []).outputs = [0xAA, 0x55, 0x00, 0x55])) := by
  have e0 : ∀ a b : Nat, FastMultiplier.ref_mul_lo a b = Radix4.ref_mul_lo a b := fun _ _ => rfl
  have e3 : ∀ a b : Nat, FastMultiplier.ref_mulh_uu a b = Radix4.ref_mulh_uu a b :=
    fun _ _ => rfl
  constructor
  · intro hc
    obtain ⟨v0, v1, v2, v3⟩ := RV32M.fixed_vectors
    have c0 := (hc 7 3 (by norm_num) (by norm_num)).1
    have c1 := (hc (to_u32 (-7)) (to_u32 3) (by decide) (by decide)).2.1
    have c2 := (hc (to_u32 (-7)) 3 (by decide) (by norm_num)).2.2.1
    have c3 := (hc 7 3 (by norm_num) (by norm_num)).2.2.2
    rw [v0] at c0
    rw [v1] at c1
    rw [v2] at c2
    rw [v3] at c3
    constructor
    · rw [FastMultiplier.fast_main_run P fuel, if_pos hf]
      simp [Res.outputs, Res.trace, Event.written, FastMultiplier.status_word,
        FastMultiplier.encode, FastMultiplier.pass_flag, e0, ref_models_agree_ss,
        ref_models_agree_su, e3, c0, c1, c2, c3, or_u8, trunc_u8]
    · intro hP
      rw [Radix4.main_run P hP fuel, if_pos hf]
      simp [Res.outputs, Res.trace, Event.written, Radix4.status_word, c0, c1, c2, c3, or_u8,
        trunc_u8]
  · intro c0 c1 c2 c3
    constructor
    · rw [FastMultiplier.fast_main_run P fuel, if_pos hf]
      simp [Res.outputs, Res.trace, Event.written, FastMultiplier.status_word,
        FastMultiplier.encode, FastMultiplier.pass_flag, e0, ref_models_agree_ss,
        ref_models_agree_su, e3, c0, c1, c2, c3, or_u8, trunc_u8]
    · intro hP
      rw [Radix4.main_run P hP fuel, if_pos hf]
      simp [Res.outputs, Res.trace, Event.written, Radix4.status_word, c0, c1, c2, c3, or_u8,
        trunc_u8]

/-- Instance of C15: the complete runs of both programs on the reference platform. -/
theorem status_all_pass_all_fail_witness :
    (300000 < 300001 ∧ RV32M.correct RV32M.reference_platform ∧
      RV32M.reference_platform.gpio_available ≠ 0) ∧
    (FastMultiplier.main RV32M.reference_platform 300001 []).outputs
      = [0xAA, 0x55, 0x00, 0xAA] ∧
    (Radix4.main RV32M.reference_platform 300001 []).outputs = [0xAA, 0x55, 0x00, 0xAA] :=
  ⟨⟨by decide, RV32M.reference_platform_correct, by decide⟩,
    ((status_all_pass_all_fail RV32M.reference_platform 300001 (by decide)).1
      RV32M.reference_platform_correct).1,
    ((status_all_pass_all_fail RV32M.reference_platform 300001 (by decide)).1
      RV32M.reference_platform_correct).2 (by decide)⟩

/-! ## The two reference models -/

/-- C16. The reference functions of `multiplication example.c` return the same value as the
same-named functions of `Example.c` on every input, both programs fold the same hardware and
reference values into the same status word, and on a platform with the output peripheral both
`main` programs write the same values. -/
theorem reference_models_equivalent (P : Platform) (fuel : Nat) :
    (∀ a b : Nat, FastMultiplier.ref_mul_lo a b = Radix4.ref_mul_lo a b) ∧
    (∀ a b : Int, FastMultiplier.ref_mulh_ss a b = Radix4.ref_mulh_ss a b) ∧
    (∀ (a : Int) (b : Nat), FastMultiplier.ref_mulh_su a b = Radix4.ref_mulh_su a b) ∧
    (∀ a b : Nat, FastMultiplier.ref_mulh_uu a b = Radix4.ref_mulh_uu a b) ∧
    (∀ hw0 sw0 hw1 sw1 hw2 sw2 hw3 sw3 : Nat,
      FastMultiplier.status_word hw0 sw0 hw1 sw1 hw2 sw2 hw3 sw3
        = Radix4.status_word hw0 sw0 hw1 sw1 hw2 sw2 hw3 sw3) ∧
    (P.gpio_available ≠ 0 →
      (FastMultiplier.main P fuel []).outputs = (Radix4.main P fuel []).outputs) := by
  refine ⟨fun _ _ => rfl, ref_models_agree_ss, ref_models_agree_su, fun _ _ => rfl,
    status_words_agree, ?_⟩
  intro hP
  rw [FastMultiplier.fast_main_run P fuel, Radix4.main_run P hP fuel]
  split
  · simp [Res.outputs, Res.trace, Event.written, status_words_agree, ref_models_agree_ss,
      ref_models_agree_su, FastMultiplier.ref_mul_lo, Radix4.ref_mul_lo,
      FastMultiplier.ref_mulh_uu, Radix4.ref_mulh_uu]
  · simp [Res.outputs, Res.trace, Event.written]

/-- Instance of C16: the complete runs of both programs on the reference platform write the
same values. -/
theorem reference_models_equivalent_witness :
    RV32M.reference_platform.gpio_available ≠ 0 ∧
    (FastMultiplier.main RV32M.reference_platform 300001 []).outputs
      = (Radix4.main RV32M.reference_platform 300001 []).outputs :=
  ⟨by decide,
    (reference_models_equivalent RV32M.reference_platform 300001).2.2.2.2.2 (by decide)⟩

/-! ## Injectivity of the status encoding -/

/-- C17. Two combinations of hardware and reference values give the same status word if and
only if they give the same four pass/fail outcomes; outcome i is bit `7 - 2 i` of the word;
and exactly 16 status words are reachable. All of this holds for both programs. -/
theorem status_encoding_injective (hw sw hw2 sw2 : Fin 4 → Nat) :
    ((Radix4.status_word (hw 0) (sw 0) (hw 1) (sw 1) (hw 2) (sw 2) (hw 3) (sw 3)
        = Radix4.status_word (hw2 0) (sw2 0) (hw2 1) (sw2 1) (hw2 2) (sw2 2) (hw2 3) (sw2 3))
      ↔ ∀ i : Fin 4, (hw i = sw i ↔ hw2 i = sw2 i)) ∧
    ((FastMultiplier.status_word (hw 0) (sw 0) (hw 1) (sw 1) (hw 2) (sw 2) (hw 3) (sw 3)
        = FastMultiplier.status_word (hw2 0) (sw2 0) (hw2 1) (sw2 1) (hw2 2) (sw2 2) (hw2 3)
            (sw2 3))
      ↔ ∀ i : Fin 4, (hw i = sw i ↔ hw2 i = sw2 i)) ∧
    (∀ i : Fin 4, (hw i = sw i ↔
      (Radix4.status_word (hw 0) (sw 0) (hw 1) (sw 1) (hw 2) (sw 2) (hw 3) (sw 3)).testBit
        (7 - 2 * i.val) = true)) ∧
    (∀ i : Fin 4, (hw i = sw i ↔
      (FastMultiplier.status_word (hw 0) (sw 0) (hw 1) (sw 1) (hw 2) (sw 2) (hw 3)
        (sw 3)).testBit (7 - 2 * i.val) = true)) ∧
    Set.ncard {w : Nat | ∃ hw sw : Fin 4 → Nat,
        w = Radix4.status_word (hw 0) (sw 0) (hw 1) (sw 1) (hw 2) (sw 2) (hw 3) (sw 3)} = 16 ∧
    Set.ncard {w : Nat | ∃ hw sw : Fin 4 → Nat,
        w = FastMultiplier.status_word (hw 0) (sw 0) (hw 1) (sw 1) (hw 2) (sw 2) (hw 3) (sw 3)}
      = 16 := by
  have hinj : (Radix4.status_word (hw 0) (sw 0) (hw 1) (sw 1) (hw 2) (sw 2) (hw 3) (sw 3)
        = Radix4.status_word (hw2 0) (sw2 0) (hw2 1) (sw2 1) (hw2 2) (sw2 2) (hw2 3) (sw2 3))
      ↔ ∀ i : Fin 4, (hw i = sw i ↔ hw2 i = sw2 i) := by
    constructor
    · intro h i
      rw [← status_word_pass_bit hw sw i, ← status_word_pass_bit hw2 sw2 i, h]
    · exact status_word_of_outcomes hw sw hw2 sw2
  have hcard : Set.ncard {w : Nat | ∃ hw sw : Fin 4 → Nat,
        w = Radix4.status_word (hw 0) (sw 0) (hw 1) (sw 1) (hw 2) (sw 2) (hw 3) (sw 3)} = 16 := by
    rw [status_word_range, Set.ncard_coe_Finset]
    rfl
  simp only [status_words_agree]
  exact ⟨hinj, hinj, fun i => (status_word_pass_bit hw sw i).symm,
    fun i => (status_word_pass_bit hw sw i).symm, hcard, hcard⟩

/-! ## Absence of signed overflow -/

/-- C18. For `int32_t` values a, b the exact product `a * b` lies in `[-2 ^ 63, 2 ^ 63 - 1]`,
its magnitude is at most `2 ^ 62`, and the `int64_t` product of `ref_mulh_ss` is that exact
product; for an `int32_t` a and a `uint32_t` c the exact product lies in the same range and
the `int64_t` that `ref_mulh_su` stores is that exact product. -/
theorem signed_products_exact (a b : Int) (c : Nat) (ha : is_i32 a) (hb : is_i32 b)
    (hc : is_u32 c) :
    (-2 ^ 63 ≤ a * b ∧ a * b ≤ 2 ^ 63 - 1 ∧ |a * b| ≤ 2 ^ 62 ∧ mul_i64 a b = a * b) ∧
    (-2 ^ 63 ≤ a * (c : Int) ∧ a * (c : Int) ≤ 2 ^ 63 - 1 ∧
      to_i64 (mul_u64 (to_u64 a) c) = a * (c : Int)) := by
  obtain ⟨h1, h2⟩ := i32_mul_i32_bounds a b ha hb
  obtain ⟨h3, h4⟩ := i32_mul_u32_bounds a c ha hc
  refine ⟨⟨by omega, by omega, ?_, ss_product_exact a b ha hb⟩,
    ⟨by omega, by omega, su_product_exact a c ha hc⟩⟩
  rw [abs_le]
  constructor <;> omega

/-- Instance of C18 at the extreme operands: `(-2 ^ 31) * (-2 ^ 31) = 2 ^ 62` and
`(-2 ^ 31) * (2 ^ 32 - 1)`. -/
theorem signed_products_exact_witness :
    (is_i32 (-2 ^ 31) ∧ is_u32 (2 ^ 32 - 1)) ∧
    mul_i64 (-2 ^ 31) (-2 ^ 31) = -2 ^ 31 * -2 ^ 31 ∧
    to_i64 (mul_u64 (to_u64 (-2 ^ 31)) (2 ^ 32 - 1)) = -2 ^ 31 * ((2 ^ 32 - 1 : Nat) : Int) :=
  ⟨⟨by unfold is_i32; norm_num, by unfold is_u32; norm_num⟩,
    (signed_products_exact (-2 ^ 31) (-2 ^ 31) (2 ^ 32 - 1) (by unfold is_i32; norm_num)
      (by unfold is_i32; norm_num) (by unfold is_u32; norm_num)).1.2.2.2,
    (signed_products_exact (-2 ^ 31) (-2 ^ 31) (2 ^ 32 - 1) (by unfold is_i32; norm_num)
      (by unfold is_i32; norm_num) (by unfold is_u32; norm_num)).2.2.2⟩
